import Mathlib

/-!
Shallow embedding of the background reconciliation subsystem of the
family_calendar repository: the event reconciliation engine
(src/calendar_app/utils.py), the chores reconciliation
(src/google_integration/routes.py, src/chores_app/database.py), the remote
source adapter (src/google_integration/api.py), the background task registry
(src/calendar_app/routes.py, src/google_integration/routes.py) and the
day-relevance logic of the presentation layer (src/calendar_app/routes.py).

Python dictionaries keyed by a primary key are modelled as association
lists; SQLite tables are modelled as lists of row structures where
INSERT OR REPLACE replaces the row with the matching primary key in place
(or appends a fresh row).  Timezone-aware datetimes are modelled after
normalization to UTC (mirroring _normalize_event_timezone, which attaches
UTC to naive values), so the timezone component is omitted.
-/

namespace FamilyCalendar

/-! ## Dates and times -/

/-- Calendar date, as produced by datetime.date in the Python source. -/
structure Date where
  year : Nat
  month : Nat
  day : Nat
deriving DecidableEq, Repr

/-- Chronological comparison of dates, as Python date ordering:
lexicographic on (year, month, day). -/
def dateLe (a b : Date) : Bool :=
  if a.year = b.year then
    if a.month = b.month then decide (a.day ≤ b.day)
    else decide (a.month < b.month)
  else decide (a.year < b.year)

/-- Timezone-normalized datetime (UTC), as used by the presentation layer
after _normalize_event_timezone. -/
structure DateTime where
  date : Date
  hour : Nat
  minute : Nat
  second : Nat
deriving DecidableEq, Repr

/-- Models datetime.min (0001-01-01 00:00:00), the fallback timestamp used
by parse_google_datetime for unparseable dateTime strings. -/
def DateTime.minValue : DateTime := ⟨⟨1, 1, 1⟩, 0, 0, 0⟩

/-! ## Day-relevance logic (src/calendar_app/routes.py) -/

/-- Models _is_midnight_end: the datetime is exactly midnight (00:00:00). -/
def is_midnight_end (dt : DateTime) : Bool :=
  decide (dt.hour = 0 ∧ dt.minute = 0 ∧ dt.second = 0)

/-- Models _is_single_day_event_relevant. -/
def is_single_day_event_relevant (start_date end_date target_date : Date) : Bool :=
  decide (start_date = end_date ∧ target_date = start_date)

/-- Models _is_multi_day_event_relevant. -/
def is_multi_day_event_relevant (start_date end_date target_date : Date)
    (midnight_end : Bool) : Bool :=
  if ¬ (dateLe start_date target_date = true ∧ dateLe target_date end_date = true) then
    false
  else if target_date = end_date ∧ midnight_end = true ∧ start_date ≠ end_date then
    false
  else
    true

/-- View of a stored event as consumed by the presentation layer
(the dictionary rows returned by get_all_events_for_month_range). -/
structure EventView where
  start_datetime : DateTime
  end_datetime : DateTime
  all_day : Bool
deriving DecidableEq, Repr

/-- Models _is_event_relevant_for_date. -/
def is_event_relevant_for_date (event : EventView) (target_date : Date) : Bool :=
  let start_date := event.start_datetime.date
  let end_date := event.end_datetime.date
  let midnight_end := is_midnight_end event.end_datetime
  if start_date = end_date then
    is_single_day_event_relevant start_date end_date target_date
  else
    is_multi_day_event_relevant start_date end_date target_date midnight_end

/-! ## Local store state (src/calendar_app/database.py) -/

/-- Row of the Calendar table. -/
structure CalRow where
  calendar_id : String
  name : String
  display_name : Option String
  color : Option String
deriving DecidableEq, Repr

/-- Row of the CalendarMonth table. -/
structure MonthRow where
  id : String
  year : Nat
  month : Nat
deriving DecidableEq, Repr

/-- Row of the CalendarEvent table. -/
structure EventRow where
  id : String
  calendar_id : String
  month_id : String
  title : String
  start_datetime : DateTime
  end_datetime : DateTime
  all_day : Bool
  location : Option String
  description : Option String
deriving DecidableEq, Repr

/-- State of the calendar SQLite database: the Calendar, CalendarMonth and
CalendarEvent tables plus the DefaultColors table (palette, in id order)
and the ColorIndex row (cursor). -/
structure DBState where
  calendars : List CalRow
  months : List MonthRow
  events : List EventRow
  palette : List String
  cursor : Nat
deriving DecidableEq, Repr

/-- Models INSERT OR REPLACE on the Calendar table: replaces every row with
the same primary key in place, otherwise appends. -/
def replaceCal (cals : List CalRow) (row : CalRow) : List CalRow :=
  if cals.any (fun c => c.calendar_id = row.calendar_id) then
    cals.map (fun c => if c.calendar_id = row.calendar_id then row else c)
  else
    cals ++ [row]

/-- Models INSERT OR REPLACE on the CalendarMonth table. -/
def replaceMonth (months : List MonthRow) (row : MonthRow) : List MonthRow :=
  if months.any (fun m => m.id = row.id) then
    months.map (fun m => if m.id = row.id then row else m)
  else
    months ++ [row]

/-- Models INSERT OR REPLACE on the CalendarEvent table. -/
def replaceEvent (events : List EventRow) (row : EventRow) : List EventRow :=
  if events.any (fun e => e.id = row.id) then
    events.map (fun e => if e.id = row.id then row else e)
  else
    events ++ [row]

/-- Models get_next_color (src/calendar_app/database.py): reads the color at
cursor mod palette size, then stores cursor + 1 without applying the modulo.
With an empty palette it returns black and leaves the cursor untouched. -/
def get_next_color (st : DBState) : String × DBState :=
  if st.palette.length = 0 then
    ("#000000", st)
  else
    let effective_index := st.cursor % st.palette.length
    let color_hex := st.palette.getD effective_index ""
    (color_hex, { st with cursor := st.cursor + 1 })

/-- In-memory Calendar object (src/calendar_app/models.py). -/
structure Calendar where
  calendar_id : String
  name : String
  display_name : String
  color : Option String
deriving DecidableEq, Repr

/-- Models the Calendar constructor: display_name falls back to name when
absent or empty (the Python expression display_name or name). -/
def mkCalendar (calendar_id name : String) (display_name : Option String)
    (color : Option String) : Calendar :=
  { calendar_id := calendar_id
    name := name
    display_name :=
      match display_name with
      | some d => if d = "" then name else d
      | none => name
    color := color }

/-- Models building a Calendar object from a fetched row, as get_calendar
does with Calendar(calendar_id=row[0], name=row[1], display_name=row[2],
color_hex=row[3]). -/
def toCalendar (row : CalRow) : Calendar :=
  mkCalendar row.calendar_id row.name row.display_name row.color

/-- Models get_calendar: SELECT ... FROM Calendar WHERE calendar_id = ?. -/
def get_calendar (st : DBState) (calendar_id : String) : Option CalRow :=
  st.calendars.find? (fun c => c.calendar_id = calendar_id)

/-- Models add_calendar: assigns the next palette color when the object has
none, then INSERT OR REPLACE into Calendar. -/
def add_calendar (st : DBState) (cal : Calendar) : DBState :=
  match cal.color with
  | none =>
      { (get_next_color st).2 with
        calendars := replaceCal (get_next_color st).2.calendars
          { calendar_id := cal.calendar_id
            name := cal.name
            display_name := some cal.display_name
            color := some (get_next_color st).1 } }
  | some c =>
      { st with
        calendars := replaceCal st.calendars
          { calendar_id := cal.calendar_id
            name := cal.name
            display_name := some cal.display_name
            color := some c } }

/-- Models the month id format f"{month}.{year}" used throughout. -/
def monthId (month year : Nat) : String :=
  toString month ++ "." ++ toString year

/-- Models add_month: INSERT OR REPLACE into CalendarMonth. -/
def add_month (st : DBState) (year month : Nat) : DBState :=
  { st with months := replaceMonth st.months ⟨monthId month year, year, month⟩ }

/-! ## Remote event data and the reconciliation engine
(src/calendar_app/utils.py, src/google_integration/routes.py) -/

/-- Processed event dictionary produced by fetch_and_process_google_events
(src/google_integration/api.py). -/
structure EventData where
  id : String
  calendar_id : String
  calendar_name : String
  title : String
  start_datetime : DateTime
  end_datetime : DateTime
  all_day : Bool
  location : Option String
  description : Option String
deriving DecidableEq, Repr

/-- In-memory CalendarEvent object (src/calendar_app/models.py). -/
structure CalendarEvent where
  id : String
  calendar : Calendar
  month_id : String
  title : String
  start_datetime : DateTime
  end_datetime : DateTime
  all_day : Bool
  location : Option String
  description : Option String
deriving DecidableEq, Repr

/-- Models get_calendar_display_name: the configured alias for the calendar
id when present, otherwise the original name.  The alias file is modelled as
an association list. -/
def get_calendar_display_name (aliases : List (String × String))
    (calendar_id original_name : String) : String :=
  match aliases.find? (fun p => p.1 = calendar_id) with
  | some p => p.2
  | none => original_name

/-- Models one iteration of the loop in
create_calendar_events_from_google_data: resolve the Calendar for the event
datum, creating or updating the Calendar row when needed.  Returns the new
database state, the Calendar object to attach to the event (none when the
re-fetch after a write fails, which makes the loop skip the event), and
whether calendar information changed. -/
def processEventDatum (aliases : List (String × String)) (st : DBState)
    (d : EventData) : DBState × Option Calendar × Bool :=
  let display_name := get_calendar_display_name aliases d.calendar_id d.calendar_name
  match get_calendar st d.calendar_id with
  | none =>
      let cal := mkCalendar d.calendar_id d.calendar_name (some display_name) none
      let st1 := add_calendar st cal
      (st1, (get_calendar st1 d.calendar_id).map toCalendar, true)
  | some row =>
      let cal := toCalendar row
      if cal.name ≠ d.calendar_name ∨ cal.display_name ≠ display_name then
        let cal1 := { cal with name := d.calendar_name, display_name := display_name }
        let st1 := add_calendar st cal1
        (st1, (get_calendar st1 d.calendar_id).map toCalendar, true)
      else
        (st, some cal, false)

/-- Models building the CalendarEvent object for one processed datum. -/
def mkEvent (d : EventData) (cal : Calendar) (month_id : String) : CalendarEvent :=
  { id := d.id
    calendar := cal
    month_id := month_id
    title := d.title
    start_datetime := d.start_datetime
    end_datetime := d.end_datetime
    all_day := d.all_day
    location := d.location
    description := d.description }

/-- Models create_calendar_events_from_google_data: walks the processed
data, creating/updating Calendar rows, and returns the CalendarEvent list
together with the calendars_changed flag. -/
def create_calendar_events_from_google_data (aliases : List (String × String))
    (st : DBState) (month_id : String) :
    List EventData → DBState × List CalendarEvent × Bool
  | [] => (st, [], false)
  | d :: rest =>
      let (st1, calOpt, ch1) := processEventDatum aliases st d
      let (st2, evs, ch2) := create_calendar_events_from_google_data aliases st1 month_id rest
      match calOpt with
      | none => (st2, evs, ch1 || ch2)
      | some cal => (st2, mkEvent d cal month_id :: evs, ch1 || ch2)

/-- Row written for a CalendarEvent by add_events, mirroring its
INSERT OR REPLACE column list (event.id, event.calendar.calendar_id,
event.month.id, fields). -/
def eventRowOf (e : CalendarEvent) : EventRow :=
  { id := e.id
    calendar_id := e.calendar.calendar_id
    month_id := e.month_id
    title := e.title
    start_datetime := e.start_datetime
    end_datetime := e.end_datetime
    all_day := e.all_day
    location := e.location
    description := e.description }

/-- State update for one processed event inside add_events: assign a
palette color to the calendar when it still has none (writing the
three-column Calendar row of the INSERT OR REPLACE at the top of
add_events, which carries no display_name), then INSERT OR REPLACE the
event row.  In the reconciliation pipeline every calendar arriving here
already has a color, so the color branch is inert there. -/
def addEventStep (st : DBState) (e : CalendarEvent) : DBState :=
  let st1 : DBState :=
    match e.calendar.color with
    | none =>
        { (get_next_color st).2 with
            calendars := replaceCal (get_next_color st).2.calendars
              { calendar_id := e.calendar.calendar_id
                name := e.calendar.name
                display_name := none
                color := some (get_next_color st).1 } }
    | some _ => st
  { st1 with events := replaceEvent st1.events (eventRowOf e) }

/-- Models the loop of add_events (src/calendar_app/utils.py): the database
state, the processed_ids set, and the changes_made flag. -/
def add_events_loop (st : DBState) (processed_ids : List String) :
    List CalendarEvent → DBState × Bool
  | [] => (st, false)
  | e :: rest =>
      if processed_ids.contains e.id then
        add_events_loop st processed_ids rest
      else
        ((add_events_loop (addEventStep st e) (e.id :: processed_ids) rest).1, true)

/-- Models add_events: INSERT OR REPLACE every event (deduplicating by id
within the batch), returning True when at least one row was written. -/
def add_events (st : DBState) (events : List CalendarEvent) : DBState × Bool :=
  add_events_loop st [] events

/-- Set of event ids computed by cleanup_deleted_events: ids stored under
the partition (db_event_ids) minus the current remote snapshot ids. -/
def staleEventIds (st : DBState) (month_id : String)
    (current_google_event_ids : List String) : List String :=
  ((st.events.filter (fun r => r.month_id = month_id)).map (fun r => r.id)).filter
    (fun i => ¬ current_google_event_ids.contains i)

/-- Models cleanup_deleted_events: deletes every CalendarEvent row whose id
appears in the partition but not in the remote snapshot, and reports whether
any deletion happened. -/
def cleanup_deleted_events (st : DBState) (month year : Nat)
    (current_google_event_ids : List String) : DBState × Bool :=
  if staleEventIds st (monthId month year) current_google_event_ids ≠ [] then
    ({ st with
        events := st.events.filter (fun r =>
          ¬ (staleEventIds st (monthId month year) current_google_event_ids).contains r.id) },
      true)
  else
    (st, false)

/-- Outcome of one reconciliation pass for a month partition, exposing the
intermediate flags of fetch_google_events_background. -/
structure ReconResult where
  state : DBState
  calendars_changed : Bool
  deleted_events : Bool
  db_changes : Bool
  events_changed : Bool
deriving Repr

/-- Models the reconciliation body of fetch_google_events_background
(src/google_integration/routes.py, lines 27-50), with the already-fetched
remote snapshot passed in for the result of
fetch_and_process_google_events: register the month, and if the snapshot is
non-empty, resolve calendars, clean up stale events against the snapshot id
set, and upsert the constructed events.  An empty snapshot (which the
adapter also returns on any fetch failure) short-circuits to
events_changed = false with no store access beyond add_month. -/
def fetch_google_events_reconcile (aliases : List (String × String)) (st : DBState)
    (month year : Nat) (processed_google_events_data : List EventData) : ReconResult :=
  let st0 := add_month st year month
  if processed_google_events_data ≠ [] then
    let (st1, events_to_add_or_update, calendars_changed) :=
      create_calendar_events_from_google_data aliases st0 (monthId month year)
        processed_google_events_data
    let google_event_ids := processed_google_events_data.map (fun d => d.id)
    let (st2, deleted_events) := cleanup_deleted_events st1 month year google_event_ids
    if events_to_add_or_update ≠ [] then
      let (st3, db_changes) := add_events st2 events_to_add_or_update
      { state := st3
        calendars_changed := calendars_changed
        deleted_events := deleted_events
        db_changes := db_changes
        events_changed := calendars_changed || db_changes || deleted_events }
    else
      { state := st2
        calendars_changed := calendars_changed
        deleted_events := deleted_events
        db_changes := false
        events_changed := calendars_changed || deleted_events }
  else
    { state := st0
      calendars_changed := false
      deleted_events := false
      db_changes := false
      events_changed := false }

/-! ## Chores reconciliation
(src/google_integration/routes.py, src/chores_app/database.py) -/

/-- Row of the Chores table (src/chores_app/database.py). -/
structure ChoreRow where
  id : String
  assigned_to : String
  description : String
  status : String
  due : Option String
deriving DecidableEq, Repr

/-- In-memory Chore object (src/chores_app/models.py); title doubles as
assigned_to and notes as description. -/
structure Chore where
  id : String
  title : String
  notes : String
  status : String
  due : Option String
deriving DecidableEq, Repr

/-- Models the row written for a Chore by add_chores. -/
def choreRowOf (c : Chore) : ChoreRow :=
  { id := c.id, assigned_to := c.title, description := c.notes
    status := c.status, due := c.due }

/-- Models INSERT OR REPLACE on the Chores table. -/
def replaceChore (rows : List ChoreRow) (row : ChoreRow) : List ChoreRow :=
  if rows.any (fun r => r.id = row.id) then
    rows.map (fun r => if r.id = row.id then row else r)
  else
    rows ++ [row]

/-- Models the SELECT status FROM Chores WHERE id = ? lookup. -/
def choreStatus (rows : List ChoreRow) (id : String) : Option String :=
  (rows.find? (fun r => r.id = id)).map (fun r => r.status)

/-- Models add_chores: for each incoming chore, re-check the stored status
at write time and INSERT OR REPLACE only when the stored row is not
invisible. -/
def add_chores (rows : List ChoreRow) : List Chore → List ChoreRow
  | [] => rows
  | c :: rest =>
      let current_status := choreStatus rows c.id
      let rows1 :=
        if current_status = some "invisible" then rows
        else replaceChore rows (choreRowOf c)
      add_chores rows1 rest

/-- Models the comparison-and-staging loop of fetch_google_tasks_background
(src/google_integration/routes.py, lines 97-106).  The chore-comparison
helper _make_chores_comparable is imported from a module version not present
in the source tree, so it is kept abstract as the differs predicate; the
loop only consults it when the stored row exists and is not invisible.
Returns the staged chore list and the chores_changed flag. -/
def stage_chores (differs : Chore → ChoreRow → Bool) (rows : List ChoreRow) :
    List Chore → List Chore × Bool
  | [] => ([], false)
  | g :: rest =>
      let (staged, changed) := stage_chores differs rows rest
      match rows.find? (fun r => r.id = g.id) with
      | some existing =>
          if existing.status = "invisible" then (staged, changed)
          else if differs g existing then (g :: staged, true)
          else (staged, changed)
      | none => (g :: staged, true)

/-- Models the chore-processing body of fetch_google_tasks_background:
stage remote chores against the stored rows (including invisible ones),
batch-write the staged chores through add_chores, and report
chores_changed. -/
def fetch_google_tasks_reconcile (differs : Chore → ChoreRow → Bool)
    (rows : List ChoreRow) (chores_from_google : List Chore) :
    List ChoreRow × Bool :=
  let (staged, chores_changed) := stage_chores differs rows chores_from_google
  let rows1 := if staged ≠ [] then add_chores rows staged else rows
  (rows1, chores_changed)

/-! ## Background task registry
(src/calendar_app/routes.py, src/google_integration/routes.py) -/

/-- In-memory background task record: the dictionary stored in
background_tasks, with optional keys modelled as Option fields. -/
structure TaskRec where
  status : String
  updated : Bool
  events_changed : Option Bool
  chores_changed : Option Bool
  last_update_time : Option Int
deriving DecidableEq, Repr

/-- Fresh record created when a work unit claims a partition. -/
def TaskRec.initial : TaskRec :=
  { status := "running", updated := false, events_changed := none
    chores_changed := none, last_update_time := none }

/-- The background_tasks dictionary, modelled as an association list with
first-match lookup and in-place replacement. -/
def Registry := List (String × TaskRec)

/-- Dictionary lookup background_tasks.get(task_id). -/
def Registry.lookup (reg : Registry) (task_id : String) : Option TaskRec :=
  (List.find? (fun p => p.1 = task_id) reg).map (fun p => p.2)

/-- Dictionary assignment background_tasks[task_id] = rec. -/
def Registry.store (reg : Registry) (task_id : String) (rec : TaskRec) : Registry :=
  if List.any reg (fun p => p.1 = task_id) then
    List.map (fun p => if p.1 = task_id then (task_id, rec) else p) reg
  else
    List.append reg [(task_id, rec)]

/-- In-place mutation of the record stored under task_id (a no-op when the
key is absent, where Python would raise KeyError). -/
def Registry.modify (reg : Registry) (task_id : String) (f : TaskRec → TaskRec) : Registry :=
  match reg.lookup task_id with
  | some rec => reg.store task_id (f rec)
  | none => reg

/-- Models _should_start_calendar_background_task
(src/calendar_app/routes.py): decides under the lock whether a calendar
fetch should be spawned, flipping a stale complete record to
pending_refresh.  Returns the decision together with the registry as left
by the critical section. -/
def should_start_calendar_background_task (reg : Registry) (task_id : String)
    (now : Int) (sync_interval_seconds : Int) : Bool × Registry :=
  match reg.lookup task_id with
  | none => (true, reg)
  | some task_info =>
      if task_info.status ≠ "running" ∧ task_info.status ≠ "complete" then
        (true, reg)
      else if task_info.status = "complete" then
        let last_update_time := task_info.last_update_time.getD 0
        if now - last_update_time > sync_interval_seconds then
          (true, reg.store task_id { task_info with status := "pending_refresh" })
        else
          (false, reg)
      else
        (false, reg)

/-- Models the entry guard of fetch_google_events_background and
fetch_google_tasks_background (lines 21-24 and 80-83): under the lock,
return early when the partition is already running, otherwise claim it by
storing a fresh running record.  The Bool reports whether the work unit
proceeds. -/
def work_unit_guard (reg : Registry) (task_id : String) : Bool × Registry :=
  match reg.lookup task_id with
  | some info =>
      if info.status = "running" then (false, reg)
      else (true, reg.store task_id TaskRec.initial)
  | none => (true, reg.store task_id TaskRec.initial)

/-- Outcome of the try-body of a background work unit: ok carries the
computed change flag, error stands for an uncaught exception. -/
def WorkOutcome := Except Unit Bool

/-- Models fetch_google_events_background at the registry level: the entry
guard, then the try/except/finally bookkeeping applied to the outcome of
the reconciliation body (time is the value of time.time()). -/
def run_calendar_work_unit (reg : Registry) (task_id : String)
    (outcome : WorkOutcome) (time : Int) : Registry :=
  let (proceed, reg0) := work_unit_guard reg task_id
  if proceed then
    let reg1 :=
      match outcome with
      | .ok events_changed =>
          reg0.modify task_id (fun info =>
            { info with updated := events_changed
                        events_changed := some events_changed
                        last_update_time := some time })
      | .error _ =>
          reg0.modify task_id (fun info =>
            { info with status := "error"
                        updated := false
                        events_changed := some false
                        last_update_time := some time })
    reg1.modify task_id (fun info =>
      if info.status ≠ "error" then { info with status := "complete" } else info)
  else
    reg0

/-- Models fetch_google_tasks_background at the registry level; its error
path sets no last_update_time. -/
def run_tasks_work_unit (reg : Registry) (task_id : String)
    (outcome : WorkOutcome) : Registry :=
  let (proceed, reg0) := work_unit_guard reg task_id
  if proceed then
    let reg1 :=
      match outcome with
      | .ok chores_changed =>
          reg0.modify task_id (fun info =>
            { info with updated := chores_changed
                        chores_changed := some chores_changed })
      | .error _ =>
          reg0.modify task_id (fun info =>
            { info with status := "error"
                        updated := false
                        chores_changed := some false })
    reg1.modify task_id (fun info =>
      if info.status ≠ "error" then { info with status := "complete" } else info)
  else
    reg0

/-! ## Remote source adapter timestamp parsing
(src/google_integration/api.py) -/

/-- Google API date object: at most one of dateTime (RFC3339 string) and
date (YYYY-MM-DD string) is populated for each key the remote record
carries. -/
structure GDateObj where
  dateTime : Option String
  date : Option String
deriving DecidableEq, Repr

/-- Decimal digit test used by the strptime model. -/
def isDigitChar (c : Char) : Bool :=
  decide ('0' ≤ c ∧ c ≤ '9')

/-- Splits a character list on dashes, as the %Y-%m-%d pattern does. -/
def splitOnDash : List Char → List (List Char)
  | [] => [[]]
  | c :: rest =>
      let r := splitOnDash rest
      if c = '-' then [] :: r
      else
        match r with
        | [] => [[c]]
        | g :: gs => (c :: g) :: gs

/-- Decimal value of a digit character list. -/
def digitsToNat (cs : List Char) : Nat :=
  cs.foldl (fun acc c => acc * 10 + (c.toNat - Char.toNat '0')) 0

/-- Number of days in the given month, with the Gregorian leap rule, as
validated by the datetime constructor inside strptime. -/
def daysInMonth (year month : Nat) : Nat :=
  if month = 2 then
    if year % 4 = 0 ∧ (year % 100 ≠ 0 ∨ year % 400 = 0) then 29 else 28
  else if month = 4 ∨ month = 6 ∨ month = 9 ∨ month = 11 then 30
  else 31

/-- Models datetime.strptime(s, "%Y-%m-%d"): a four-digit year, a one- or
two-digit month in 1-12 and a one- or two-digit day, separated by dashes,
consuming the whole string, with the resulting date validated (day in range
for the month, year at least MINYEAR = 1).  Returns none where strptime
raises ValueError. -/
def strptime_date (s : String) : Option Date :=
  match splitOnDash s.data with
  | [ys, ms, ds] =>
      if ys.length = 4 ∧ ys.all isDigitChar ∧
         1 ≤ ms.length ∧ ms.length ≤ 2 ∧ ms.all isDigitChar ∧
         1 ≤ ds.length ∧ ds.length ≤ 2 ∧ ds.all isDigitChar then
        let y := digitsToNat ys
        let m := digitsToNat ms
        let d := digitsToNat ds
        if 1 ≤ y ∧ 1 ≤ m ∧ m ≤ 12 ∧ 1 ≤ d ∧ d ≤ daysInMonth y m then
          some ⟨y, m, d⟩
        else none
      else none
  | _ => none

/-- Models parse_google_datetime.  The RFC3339 parser
datetime.fromisoformat (together with the preceding Z-substitution and the
naive-to-UTC normalization) is Python library behavior kept abstract as the
fromiso argument, returning none where it raises ValueError.  The result is
ok (datetime, is_all_day), or error where the Python function raises: in
the all-day branch the strptime call sits outside any try/except, so a
malformed or missing date string propagates (ValueError / TypeError), while
in the timed branch the ValueError handler substitutes datetime.min. -/
def parse_google_datetime (fromiso : String → Option DateTime)
    (google_date_obj : GDateObj) : Except Unit (DateTime × Bool) :=
  let is_all_day := google_date_obj.dateTime.isNone
  if is_all_day then
    match google_date_obj.date with
    | none => .error ()
    | some s =>
        match strptime_date s with
        | some d => .ok (⟨d, 0, 0, 0⟩, true)
        | none => .error ()
  else
    match google_date_obj.dateTime with
    | some s =>
        match fromiso s with
        | some dt => .ok (dt, false)
        | none => .ok (DateTime.minValue, false)
    | none => .error ()

/-- Raw Google event record, restricted to the fields read by
fetch_and_process_google_events. -/
structure RawEvent where
  id : String
  organizer_email : Option String
  organizer_display_name : Option String
  summary : Option String
  start : GDateObj
  stop : GDateObj
  location : Option String
  description : Option String
deriving DecidableEq, Repr

/-- Models the processing of one raw event inside the try-body of
fetch_and_process_google_events; an exception from parse_google_datetime
propagates. -/
def process_raw_event (fromiso : String → Option DateTime) (event_data : RawEvent) :
    Except Unit EventData := do
  let google_cal_id := event_data.organizer_email.getD "primary"
  let google_cal_summary := event_data.organizer_display_name.getD google_cal_id
  let (start_datetime, start_all_day) ← parse_google_datetime fromiso event_data.start
  let (end_datetime, _) ← parse_google_datetime fromiso event_data.stop
  .ok { id := event_data.id
        calendar_id := google_cal_id
        calendar_name := google_cal_summary
        title := event_data.summary.getD "(No Title)"
        start_datetime := start_datetime
        end_datetime := end_datetime
        all_day := start_all_day
        location := event_data.location
        description := event_data.description }

/-- Models the event loop of fetch_and_process_google_events as the
try-body: the first exception aborts the whole loop. -/
def process_raw_events (fromiso : String → Option DateTime) :
    List RawEvent → Except Unit (List EventData)
  | [] => .ok []
  | e :: rest => do
      let d ← process_raw_event fromiso e
      let ds ← process_raw_events fromiso rest
      .ok (d :: ds)

/-- Models fetch_and_process_google_events after a successful fetch of
google_events_raw: any exception inside the loop is caught by the
surrounding except handler, which returns the empty list. -/
def fetch_and_process_google_events (fromiso : String → Option DateTime)
    (google_events_raw : List RawEvent) : List EventData :=
  match process_raw_events fromiso google_events_raw with
  | .ok processed_events => processed_events
  | .error _ => []

/-! ## Sample data used by counterexamples and witnesses -/

/-- Event spanning 2025-05-14T10:00Z to 2025-05-16T11:00Z. -/
def multiDayEvent : EventView :=
  { start_datetime := ⟨⟨2025, 5, 14⟩, 10, 0, 0⟩
    end_datetime := ⟨⟨2025, 5, 16⟩, 11, 0, 0⟩
    all_day := false }

/-- All-day event spanning 2025-05-15T00:00Z to 2025-05-16T00:00Z. -/
def allDayEvent : EventView :=
  { start_datetime := ⟨⟨2025, 5, 15⟩, 0, 0, 0⟩
    end_datetime := ⟨⟨2025, 5, 16⟩, 0, 0, 0⟩
    all_day := true }

/-- Freshly initialized calendar database with a two-color palette. -/
def twoColorState : DBState :=
  { calendars := [], months := [], events := []
    palette := ["#3D5A80", "#8336E7"], cursor := 0 }

/-- Stored event row under partition 5.2025 with the given id. -/
def storedEvent (id : String) : EventRow :=
  { id := id, calendar_id := "cal1", month_id := "5.2025", title := id
    start_datetime := ⟨⟨2025, 5, 3⟩, 9, 0, 0⟩
    end_datetime := ⟨⟨2025, 5, 3⟩, 10, 0, 0⟩
    all_day := false, location := none, description := none }

/-- Store holding events A, B, C under partition 5.2025. -/
def cleanupSampleState : DBState :=
  { calendars := [], months := []
    events := [storedEvent "A", storedEvent "B", storedEvent "C"]
    palette := ["#3D5A80", "#8336E7"], cursor := 0 }

/-- Processed remote event used by the reconciliation examples. -/
def sampleEventData : EventData :=
  { id := "e1", calendar_id := "cal1", calendar_name := "Work"
    title := "Standup"
    start_datetime := ⟨⟨2025, 6, 2⟩, 14, 0, 0⟩
    end_datetime := ⟨⟨2025, 6, 2⟩, 14, 30, 0⟩
    all_day := false, location := none, description := none }

/-- Raw remote event whose all-day date string is malformed. -/
def badRawEvent : RawEvent :=
  { id := "bad1", organizer_email := some "cal1@example.com"
    organizer_display_name := some "Work", summary := some "Broken"
    start := { dateTime := none, date := some "garbage" }
    stop := { dateTime := none, date := some "garbage" }
    location := none, description := none }

/-- Raw remote event with well-formed timed fields. -/
def goodRawEvent : RawEvent :=
  { id := "good1", organizer_email := some "cal1@example.com"
    organizer_display_name := some "Work", summary := some "Standup"
    start := { dateTime := some "2025-06-02T14:00:00Z", date := none }
    stop := { dateTime := some "2025-06-02T14:30:00Z", date := none }
    location := none, description := none }

/-- RFC3339 parser stand-in that fails on every input string. -/
def noIso : String → Option DateTime := fun _ => none

/-- Stored chore row with id x1 marked invisible. -/
def invisibleChoreRow : ChoreRow :=
  { id := "x1", assigned_to := "Alice", description := "Dishes"
    status := "invisible", due := none }

/-- Remote chore with id x1 and different fields. -/
def remoteChore : Chore :=
  { id := "x1", title := "Bob", notes := "Dishes tonight"
    status := "needsAction", due := some "2025-06-01" }

/-- Chore comparison stand-in reporting every pair as different. -/
def alwaysDiffers : Chore → ChoreRow → Bool := fun _ _ => true

/-- Every stored Calendar row carries a color; add_calendar always assigns
one, so reconciliation preserves this invariant. -/
def ColorComplete (st : DBState) : Prop :=
  ∀ c ∈ st.calendars, c.color.isSome = true

/-- The stored Calendar row for an event datum already carries the name
and the alias-resolved display name of the datum, so the calendar-update
branch of create_calendar_events_from_google_data has nothing to do. -/
def calendarMatches (aliases : List (String × String)) (st : DBState)
    (d : EventData) : Prop :=
  ∃ row, get_calendar st d.calendar_id = some row ∧
    (toCalendar row).name = d.calendar_name ∧
    (toCalendar row).display_name =
      get_calendar_display_name aliases d.calendar_id d.calendar_name

/-! ## Theorems -/

theorem dateLe_refl (a : Date) : dateLe a a = true := by
  simp [dateLe]

theorem dateLe_antisymm {a b : Date} (h1 : dateLe a b = true)
    (h2 : dateLe b a = true) : a = b := by
  obtain ⟨y1, m1, d1⟩ := a
  obtain ⟨y2, m2, d2⟩ := b
  simp only [dateLe, decide_eq_true_eq] at h1 h2
  split_ifs at h1 h2 <;> simp_all <;> omega

/-- C7: an event is relevant to a day exactly when the day lies in
[start date, end date] inclusive, except that a multi-day event ending at
exactly midnight is not relevant to its end date; in particular a single-day
event is relevant only to its own date.  The concrete conjuncts check the
two examples from the specification. -/
theorem day_relevance_characterization :
    (∀ (event : EventView) (target_date : Date),
      is_event_relevant_for_date event target_date = true ↔
        (dateLe event.start_datetime.date target_date = true ∧
         dateLe target_date event.end_datetime.date = true ∧
         ¬(target_date = event.end_datetime.date ∧
           is_midnight_end event.end_datetime = true ∧
           event.start_datetime.date ≠ event.end_datetime.date))) ∧
    is_event_relevant_for_date multiDayEvent ⟨2025, 5, 14⟩ = true ∧
    is_event_relevant_for_date multiDayEvent ⟨2025, 5, 15⟩ = true ∧
    is_event_relevant_for_date multiDayEvent ⟨2025, 5, 16⟩ = true ∧
    is_event_relevant_for_date allDayEvent ⟨2025, 5, 15⟩ = true ∧
    is_event_relevant_for_date allDayEvent ⟨2025, 5, 16⟩ = false := by
  refine ⟨?_, by decide, by decide, by decide, by decide, by decide⟩
  intro ev t
  by_cases hse : ev.start_datetime.date = ev.end_datetime.date
  · rw [is_event_relevant_for_date, if_pos hse]
    simp only [is_single_day_event_relevant, decide_eq_true_eq, ne_eq, hse,
      true_and, not_true_eq_false, and_false, not_false_eq_true, and_true]
    constructor
    · intro ht
      subst ht
      exact ⟨dateLe_refl _, dateLe_refl _⟩
    · intro h
      exact dateLe_antisymm h.2 h.1
  · rw [is_event_relevant_for_date, if_neg hse, is_multi_day_event_relevant]
    by_cases h1 : dateLe ev.start_datetime.date t = true ∧
        dateLe t ev.end_datetime.date = true
    · rw [if_neg (not_not_intro h1)]
      by_cases h2 : t = ev.end_datetime.date ∧
          is_midnight_end ev.end_datetime = true ∧
          ev.start_datetime.date ≠ ev.end_datetime.date
      · rw [if_pos h2]
        exact iff_of_false (by simp) (fun hc => hc.2.2 h2)
      · rw [if_neg h2]
        exact iff_of_true rfl ⟨h1.1, h1.2, h2⟩
    · rw [if_pos h1]
      exact iff_of_false (by simp) (fun hc => h1 ⟨hc.1, hc.2.1⟩)

/-- C8: color assignment looks up the palette at cursor mod palette size
and persists cursor + 1 without applying the modulo; with a palette of size
2 and cursor 0, three successive assignments yield palette[0], palette[1],
palette[0] and leave the persisted cursor at 3. -/
theorem color_assignment_round_robin :
    (∀ st : DBState, st.palette ≠ [] →
      (get_next_color st).2.cursor = st.cursor + 1 ∧
      (get_next_color st).1 = st.palette.getD (st.cursor % st.palette.length) "" ∧
      (get_next_color st).2.palette = st.palette) ∧
    (∀ (p0 p1 : String) (st : DBState), st.palette = [p0, p1] → st.cursor = 0 →
      (get_next_color st).1 = p0 ∧
      (get_next_color (get_next_color st).2).1 = p1 ∧
      (get_next_color (get_next_color (get_next_color st).2).2).1 = p0 ∧
      (get_next_color (get_next_color (get_next_color st).2).2).2.cursor = 3) := by
  constructor
  · intro st hne
    have hlen : ¬ st.palette.length = 0 := by simpa using hne
    simp [get_next_color, hlen]
  · intro p0 p1 st hp hc
    simp [get_next_color, hp, hc]

/-- Witness for color_assignment_round_robin at a concrete two-color
palette starting from cursor 0. -/
theorem color_assignment_round_robin_witness :
    (get_next_color twoColorState).1 = "#3D5A80" ∧
    (get_next_color (get_next_color twoColorState).2).1 = "#8336E7" ∧
    (get_next_color (get_next_color (get_next_color twoColorState).2).2).1 = "#3D5A80" ∧
    (get_next_color (get_next_color (get_next_color twoColorState).2).2).2.cursor = 3 :=
  color_assignment_round_robin.2 "#3D5A80" "#8336E7" twoColorState rfl rfl

/-- C10: an empty remote snapshot for a partition (including one returned
by a successful fetch with zero events) leaves every stored event, every
calendar row and the color cursor unchanged and reports
events_changed = false, so remote deletions are never applied once the
remote month is empty. -/
theorem empty_snapshot_frame (aliases : List (String × String)) (st : DBState)
    (month year : Nat) :
    (fetch_google_events_reconcile aliases st month year []).state.events = st.events ∧
    (fetch_google_events_reconcile aliases st month year []).state.calendars = st.calendars ∧
    (fetch_google_events_reconcile aliases st month year []).state.cursor = st.cursor ∧
    (fetch_google_events_reconcile aliases st month year []).events_changed = false := by
  simp [fetch_google_events_reconcile, add_month]

/-- C2: when the remote fetch fails (the processing loop raises, so the
adapter returns the empty list), the reconciliation pass removes no stored
event for the partition and reports events_changed = false. -/
theorem fetch_failure_no_deletion (fromiso : String → Option DateTime)
    (raws : List RawEvent) (aliases : List (String × String)) (st : DBState)
    (month year : Nat)
    (hfail : ∃ err, process_raw_events fromiso raws = .error err) :
    (fetch_google_events_reconcile aliases st month year
        (fetch_and_process_google_events fromiso raws)).state.events = st.events ∧
    (fetch_google_events_reconcile aliases st month year
        (fetch_and_process_google_events fromiso raws)).events_changed = false := by
  obtain ⟨err, herr⟩ := hfail
  have hempty : fetch_and_process_google_events fromiso raws = [] := by
    simp [fetch_and_process_google_events, herr]
  rw [hempty]
  simp [fetch_google_events_reconcile, add_month]

/-- Witness for fetch_failure_no_deletion: a malformed all-day event makes
the processing loop raise, and the store with event C is untouched. -/
theorem fetch_failure_no_deletion_witness :
    (fetch_google_events_reconcile [] cleanupSampleState 5 2025
        (fetch_and_process_google_events noIso [badRawEvent])).state.events =
      cleanupSampleState.events ∧
    (fetch_google_events_reconcile [] cleanupSampleState 5 2025
        (fetch_and_process_google_events noIso [badRawEvent])).events_changed = false :=
  fetch_failure_no_deletion noIso [badRawEvent] [] cleanupSampleState 5 2025
    ⟨(), by rfl⟩

theorem mem_staleEventIds {st : DBState} {month_id : String}
    {snap : List String} {x : String} :
    x ∈ staleEventIds st month_id snap ↔
      (∃ r ∈ st.events, r.id = x ∧ r.month_id = month_id) ∧ x ∉ snap := by
  simp only [staleEventIds, List.mem_filter, List.mem_map, decide_eq_true_eq,
    List.elem_iff]
  constructor
  · rintro ⟨⟨r, ⟨hr, hm⟩, hrx⟩, hnot⟩
    exact ⟨⟨r, hr, hrx, by simpa using hm⟩, by simpa using hnot⟩
  · rintro ⟨⟨r, hr, hrx, hrm⟩, hnot⟩
    exact ⟨⟨r, ⟨hr, by simpa using hrm⟩, hrx⟩, by simpa using hnot⟩

/-- C5: the deletion step removes exactly the rows whose id is stored under
the partition and absent from the remote snapshot, and reports deleted =
true exactly when that difference set is non-empty. -/
theorem cleanup_deleted_events_spec (st : DBState) (month year : Nat)
    (snap : List String)
    (hnodup : (st.events.map EventRow.id).Nodup) :
    (cleanup_deleted_events st month year snap).1.events =
      st.events.filter
        (fun r => ¬(r.month_id = monthId month year ∧ r.id ∉ snap)) ∧
    ((cleanup_deleted_events st month year snap).2 = true ↔
      ∃ r ∈ st.events, r.month_id = monthId month year ∧ r.id ∉ snap) := by
  have hkey : ∀ r ∈ st.events,
      (r.id ∈ staleEventIds st (monthId month year) snap ↔
        (r.month_id = monthId month year ∧ r.id ∉ snap)) := by
    intro r hr
    rw [mem_staleEventIds]
    constructor
    · rintro ⟨⟨r2, hr2, hid, hm⟩, hnot⟩
      have : r2 = r := List.inj_on_of_nodup_map hnodup hr2 hr hid
      subst this
      exact ⟨hm, hnot⟩
    · rintro ⟨hm, hnot⟩
      exact ⟨⟨r, hr, rfl, hm⟩, hnot⟩
  by_cases hne : staleEventIds st (monthId month year) snap = []
  · rw [cleanup_deleted_events, if_neg (by simp [hne])]
    have hnothing : ∀ r ∈ st.events,
        ¬(r.month_id = monthId month year ∧ r.id ∉ snap) := by
      intro r hr hcontra
      have := (hkey r hr).mpr hcontra
      simp [hne] at this
    constructor
    · rw [eq_comm]
      rw [List.filter_eq_self]
      intro r hr
      have h := hnothing r hr
      simp only [decide_eq_true_eq]
      tauto
    · simp only [Bool.false_eq_true, false_iff]
      rintro ⟨r, hr, hm, hnot⟩
      exact hnothing r hr ⟨hm, hnot⟩
  · rw [cleanup_deleted_events, if_pos (by simp [hne])]
    constructor
    · apply List.filter_congr
      intro r hr
      have := hkey r hr
      simp only [decide_eq_decide]
      rw [← this]
      simp [List.elem_iff]
    · simp only [true_iff]
      obtain ⟨x, hx⟩ := List.exists_mem_of_ne_nil _ hne
      obtain ⟨⟨r, hr, hid, hm⟩, hnot⟩ := mem_staleEventIds.mp hx
      exact ⟨r, hr, hm, by rwa [hid]⟩

/-- Witness for cleanup_deleted_events_spec: stored events A, B, C under
partition 5.2025 against remote snapshot containing only A and B. -/
theorem cleanup_deleted_events_spec_witness :
    (cleanup_deleted_events cleanupSampleState 5 2025 ["A", "B"]).1.events =
      cleanupSampleState.events.filter
        (fun r => ¬(r.month_id = monthId 5 2025 ∧ r.id ∉ ["A", "B"])) ∧
    ((cleanup_deleted_events cleanupSampleState 5 2025 ["A", "B"]).2 = true ↔
      ∃ r ∈ cleanupSampleState.events,
        r.month_id = monthId 5 2025 ∧ r.id ∉ ["A", "B"]) :=
  cleanup_deleted_events_spec cleanupSampleState 5 2025 ["A", "B"] (by decide)

theorem find_row_of_mem_nodup {rows : List ChoreRow} {r : ChoreRow}
    (hmem : r ∈ rows) (hnodup : (rows.map ChoreRow.id).Nodup) :
    rows.find? (fun x => x.id = r.id) = some r := by
  induction rows with
  | nil => cases hmem
  | cons a rest ih =>
      simp only [List.map_cons, List.nodup_cons] at hnodup
      rcases List.mem_cons.mp hmem with heq | hmem2
      · subst heq
        simp [List.find?_cons]
      · have hne : ¬ a.id = r.id := by
          intro h
          exact hnodup.1 (h ▸ List.mem_map.mpr ⟨r, hmem2, rfl⟩)
        rw [List.find?_cons]
        simp only [hne, decide_eq_true_eq, decide_eq_false hne]
        exact ih hmem2 hnodup.2

theorem map_id_replaceChore (rows : List ChoreRow) (row : ChoreRow)
    (hnodup : (rows.map ChoreRow.id).Nodup) :
    ((replaceChore rows row).map ChoreRow.id).Nodup := by
  unfold replaceChore
  split_ifs with h
  · have heq : (rows.map (fun r => if r.id = row.id then row else r)).map ChoreRow.id
        = rows.map ChoreRow.id := by
      rw [List.map_map]
      apply List.map_congr_left
      intro r _
      by_cases hid : r.id = row.id <;> simp [hid, Function.comp]
    rw [heq]
    exact hnodup
  · rw [List.map_append]
    simp only [List.map_cons, List.map_nil]
    rw [List.nodup_append]
    refine ⟨hnodup, List.nodup_singleton _, ?_⟩
    intro x hx
    simp only [List.mem_singleton]
    intro hxe
    subst hxe
    obtain ⟨r2, hr2, hid2⟩ := List.mem_map.mp hx
    simp only [List.any_eq_true, decide_eq_true_eq, not_exists] at h
    exact h r2 ⟨hr2, hid2⟩

theorem mem_replaceChore_of_ne {rows : List ChoreRow} {row r : ChoreRow}
    (hmem : r ∈ rows) (hne : ¬ r.id = row.id) : r ∈ replaceChore rows row := by
  unfold replaceChore
  split_ifs with h
  · exact List.mem_map.mpr ⟨r, hmem, by simp [hne]⟩
  · exact List.mem_append_left _ hmem

theorem add_chores_keeps_invisible (staged : List Chore) :
    ∀ (rows : List ChoreRow) (r : ChoreRow), r ∈ rows → r.status = "invisible" →
    (rows.map ChoreRow.id).Nodup →
    (add_chores rows staged).find? (fun x => x.id = r.id) = some r := by
  induction staged with
  | nil =>
      intro rows r hmem hinv hnd
      exact find_row_of_mem_nodup hmem hnd
  | cons c rest ih =>
      intro rows r hmem hinv hnd
      by_cases hid : c.id = r.id
      · have hfind : rows.find? (fun x => x.id = c.id) = some r := by
          rw [hid]
          exact find_row_of_mem_nodup hmem hnd
        have hstat : choreStatus rows c.id = some "invisible" := by
          simp [choreStatus, hfind, hinv]
        show (add_chores
            (if choreStatus rows c.id = some "invisible" then rows
             else replaceChore rows (choreRowOf c)) rest).find?
            (fun x => x.id = r.id) = some r
        rw [if_pos hstat]
        exact ih rows r hmem hinv hnd
      · show (add_chores
            (if choreStatus rows c.id = some "invisible" then rows
             else replaceChore rows (choreRowOf c)) rest).find?
            (fun x => x.id = r.id) = some r
        by_cases hstat : choreStatus rows c.id = some "invisible"
        · rw [if_pos hstat]
          exact ih rows r hmem hinv hnd
        · rw [if_neg hstat]
          refine ih _ r ?_ hinv ?_
          · exact mem_replaceChore_of_ne hmem (by simpa [choreRowOf] using fun h => hid h.symm)
          · exact map_id_replaceChore _ _ hnd

theorem stage_chores_invisible_skip (differs : Chore → ChoreRow → Bool)
    (rows : List ChoreRow) (r : ChoreRow)
    (hmem : r ∈ rows) (hinv : r.status = "invisible")
    (hnd : (rows.map ChoreRow.id).Nodup) :
    ∀ remote : List Chore,
      ((stage_chores differs rows remote).2 =
        (stage_chores differs rows (remote.filter (fun g => ¬ g.id = r.id))).2) ∧
      (∀ g ∈ (stage_chores differs rows remote).1, ¬ g.id = r.id) := by
  intro remote
  induction remote with
  | nil => exact ⟨rfl, by intro g hg; cases hg⟩
  | cons g rest ih =>
      rcases hst : stage_chores differs rows rest with ⟨staged, changed⟩
      rw [hst] at ih
      by_cases hgid : g.id = r.id
      · have hfind : rows.find? (fun x => x.id = g.id) = some r := by
          rw [hgid]
          exact find_row_of_mem_nodup hmem hnd
        have hfilter : (g :: rest).filter (fun x => ¬ x.id = r.id)
            = rest.filter (fun x => ¬ x.id = r.id) := by
          simp [List.filter_cons, hgid]
        have hhead : stage_chores differs rows (g :: rest) = (staged, changed) := by
          simp [stage_chores, hst, hfind, hinv]
        refine ⟨?_, ?_⟩
        · rw [hhead, hfilter]
          exact ih.1
        · rw [hhead]
          exact ih.2
      · have hfilter : (g :: rest).filter (fun x => ¬ x.id = r.id)
            = g :: rest.filter (fun x => ¬ x.id = r.id) := by
          simp [List.filter_cons, hgid]
        rw [hfilter]
        rcases hst2 : stage_chores differs rows (rest.filter (fun x => ¬ x.id = r.id))
          with ⟨staged2, changed2⟩
        rw [hst2] at ih
        match hfind : rows.find? (fun x => x.id = g.id) with
        | some existing =>
            by_cases hexinv : existing.status = "invisible"
            · have h1 : stage_chores differs rows (g :: rest) = (staged, changed) := by
                simp only [stage_chores, hst, hfind, if_pos hexinv]
              have h2 : stage_chores differs rows
                  (g :: rest.filter (fun x => ¬ x.id = r.id)) = (staged2, changed2) := by
                simp only [stage_chores, hst2, hfind, if_pos hexinv]
              rw [h1, h2]
              exact ⟨ih.1, ih.2⟩
            · by_cases hdif : differs g existing = true
              · have h1 : stage_chores differs rows (g :: rest) = (g :: staged, true) := by
                  simp only [stage_chores, hst, hfind, if_neg hexinv, if_pos hdif]
                have h2 : stage_chores differs rows
                    (g :: rest.filter (fun x => ¬ x.id = r.id)) = (g :: staged2, true) := by
                  simp only [stage_chores, hst2, hfind, if_neg hexinv, if_pos hdif]
                rw [h1, h2]
                refine ⟨rfl, ?_⟩
                intro g2 hg2
                rcases List.mem_cons.mp hg2 with heq | hmem2
                · subst heq; exact hgid
                · exact ih.2 g2 hmem2
              · have h1 : stage_chores differs rows (g :: rest) = (staged, changed) := by
                  simp only [stage_chores, hst, hfind, if_neg hexinv,
                    if_neg hdif]
                have h2 : stage_chores differs rows
                    (g :: rest.filter (fun x => ¬ x.id = r.id)) = (staged2, changed2) := by
                  simp only [stage_chores, hst2, hfind, if_neg hexinv, if_neg hdif]
                rw [h1, h2]
                exact ⟨ih.1, ih.2⟩
        | none =>
            have h1 : stage_chores differs rows (g :: rest) = (g :: staged, true) := by
              simp only [stage_chores, hst, hfind]
            have h2 : stage_chores differs rows
                (g :: rest.filter (fun x => ¬ x.id = r.id)) = (g :: staged2, true) := by
              simp only [stage_chores, hst2, hfind]
            rw [h1, h2]
            refine ⟨rfl, ?_⟩
            intro g2 hg2
            rcases List.mem_cons.mp hg2 with heq | hmem2
            · subst heq; exact hgid
            · exact ih.2 g2 hmem2

theorem reconcile_chores_flag_eq (differs : Chore → ChoreRow → Bool)
    (rows : List ChoreRow) (remote : List Chore) :
    (fetch_google_tasks_reconcile differs rows remote).2 =
      (stage_chores differs rows remote).2 := by
  unfold fetch_google_tasks_reconcile
  rcases hst : stage_chores differs rows remote with ⟨staged, changed⟩
  simp

/-- C3: a chore row marked invisible is never overwritten by remote data:
the staging loop skips its id entirely (so it contributes
chores_changed = false, whatever the field comparison says), and the batch
writer re-checks the stored status at write time and leaves the row intact
for every staged list. -/
theorem invisible_chore_never_overwritten
    (differs : Chore → ChoreRow → Bool) (rows : List ChoreRow)
    (remote : List Chore) (r : ChoreRow)
    (hmem : r ∈ rows) (hinv : r.status = "invisible")
    (hnodup : (rows.map ChoreRow.id).Nodup) :
    ((fetch_google_tasks_reconcile differs rows remote).1.find?
        (fun x => x.id = r.id) = some r) ∧
    ((fetch_google_tasks_reconcile differs rows remote).2 =
      (fetch_google_tasks_reconcile differs rows
        (remote.filter (fun g => ¬ g.id = r.id))).2) ∧
    (∀ g ∈ (stage_chores differs rows remote).1, ¬ g.id = r.id) ∧
    (∀ staged : List Chore,
      (add_chores rows staged).find? (fun x => x.id = r.id) = some r) := by
  have hstage := stage_chores_invisible_skip differs rows r hmem hinv hnodup remote
  refine ⟨?_, ?_, hstage.2,
    fun staged => add_chores_keeps_invisible staged rows r hmem hinv hnodup⟩
  · unfold fetch_google_tasks_reconcile
    rcases hst : stage_chores differs rows remote with ⟨staged, changed⟩
    simp only
    split_ifs with h
    · exact add_chores_keeps_invisible staged rows r hmem hinv hnodup
    · exact find_row_of_mem_nodup hmem hnodup
  · rw [reconcile_chores_flag_eq, reconcile_chores_flag_eq]
    exact hstage.1

/-- Witness for invisible_chore_never_overwritten: a stored invisible chore
x1 against a remote chore x1 with different fields and an
everything-differs comparison. -/
theorem invisible_chore_never_overwritten_witness :
    ((fetch_google_tasks_reconcile alwaysDiffers [invisibleChoreRow] [remoteChore]).1.find?
        (fun x => x.id = invisibleChoreRow.id) = some invisibleChoreRow) ∧
    ((fetch_google_tasks_reconcile alwaysDiffers [invisibleChoreRow] [remoteChore]).2 =
      (fetch_google_tasks_reconcile alwaysDiffers [invisibleChoreRow]
        ([remoteChore].filter (fun g => ¬ g.id = invisibleChoreRow.id))).2) ∧
    (remoteChore ∈ (stage_chores alwaysDiffers [invisibleChoreRow] [remoteChore]).1 →
      ¬ remoteChore.id = invisibleChoreRow.id) ∧
    ((add_chores [invisibleChoreRow] [remoteChore]).find?
        (fun x => x.id = invisibleChoreRow.id) = some invisibleChoreRow) := by
  have h := invisible_chore_never_overwritten alwaysDiffers [invisibleChoreRow]
    [remoteChore] invisibleChoreRow (by decide) (by decide) (by decide)
  exact ⟨h.1, h.2.1, fun hm => h.2.2.1 remoteChore hm, h.2.2.2 [remoteChore]⟩

theorem lookup_store_self (reg : Registry) (tid : String) (rec : TaskRec) :
    Registry.lookup (Registry.store reg tid rec) tid = some rec := by
  unfold Registry.store Registry.lookup
  split_ifs with h
  · rw [List.find?_map]
    have hfun : ((fun q : String × TaskRec => decide (q.1 = tid)) ∘
        (fun p : String × TaskRec => if p.1 = tid then (tid, rec) else p))
        = (fun p : String × TaskRec => decide (p.1 = tid)) := by
      funext p
      by_cases hp : p.1 = tid <;> simp [hp, Function.comp]
    rw [hfun]
    obtain ⟨p0, hp0mem, hp0⟩ := List.any_eq_true.mp h
    have hsome : (List.find? (fun p : String × TaskRec => decide (p.1 = tid)) reg).isSome := by
      rw [List.find?_isSome]
      exact ⟨p0, hp0mem, hp0⟩
    obtain ⟨p1, hp1⟩ := Option.isSome_iff_exists.mp hsome
    have hp1t : p1.1 = tid := by simpa using List.find?_some hp1
    simp [hp1, hp1t]
  · have hnone : List.find? (fun p : String × TaskRec => decide (p.1 = tid)) reg = none := by
      rw [List.find?_eq_none]
      intro p hp hpt
      exact h (List.any_eq_true.mpr ⟨p, hp, hpt⟩)
    rw [show List.append reg [(tid, rec)]
        = HAppend.hAppend (α := List (String × TaskRec)) reg [(tid, rec)] from rfl]
    rw [List.find?_append, hnone]
    simp

theorem modify_store_self (reg : Registry) (tid : String) (rec : TaskRec)
    (f : TaskRec → TaskRec) :
    Registry.modify (Registry.store reg tid rec) tid f =
      Registry.store (Registry.store reg tid rec) tid (f rec) := by
  unfold Registry.modify
  rw [lookup_store_self]

/-- C4 counterexample: with no record present, two sequential critical
sections of should_start both return true (so two concurrent callers both
receive true whatever the interleaving, the check being atomic under the
lock), and the check itself stores no running entry. -/
theorem should_start_both_true :
    (should_start_calendar_background_task ([] : Registry) "calendar.5.2025" 1000 300).1
      = true ∧
    (should_start_calendar_background_task
        (should_start_calendar_background_task ([] : Registry) "calendar.5.2025" 1000 300).2
        "calendar.5.2025" 1000 300).1 = true ∧
    Registry.lookup
        (should_start_calendar_background_task ([] : Registry) "calendar.5.2025" 1000 300).2
        "calendar.5.2025" = none := by
  decide

/-- C4 amended: when no record exists, every caller of should_start
receives true and the check stores nothing; mutual exclusion of the work
itself is enforced by the work-unit entry guard, which claims the
partition with a running record inside its own critical section, so of two
sequential guard executions exactly the first proceeds. -/
theorem single_flight_via_work_unit_guard
    (reg : Registry) (tid : String) (now1 now2 si : Int)
    (h : reg.lookup tid = none) :
    (should_start_calendar_background_task reg tid now1 si).1 = true ∧
    (should_start_calendar_background_task reg tid now1 si).2 = reg ∧
    (should_start_calendar_background_task
        (should_start_calendar_background_task reg tid now1 si).2 tid now2 si).1 = true ∧
    (work_unit_guard reg tid).1 = true ∧
    (work_unit_guard (work_unit_guard reg tid).2 tid).1 = false := by
  have h1 : should_start_calendar_background_task reg tid now1 si = (true, reg) := by
    unfold should_start_calendar_background_task
    simp [h]
  have h2 : work_unit_guard reg tid = (true, reg.store tid TaskRec.initial) := by
    unfold work_unit_guard
    simp [h]
  refine ⟨by rw [h1], by rw [h1], ?_, by rw [h2], ?_⟩
  · rw [h1]
    have h1b : should_start_calendar_background_task reg tid now2 si = (true, reg) := by
      unfold should_start_calendar_background_task
      simp [h]
    rw [h1b]
  · rw [h2]
    unfold work_unit_guard
    rw [lookup_store_self]
    simp [TaskRec.initial]

/-- Witness for single_flight_via_work_unit_guard on the empty registry. -/
theorem single_flight_via_work_unit_guard_witness :
    (should_start_calendar_background_task ([] : Registry) "5.2025" 0 300).1 = true ∧
    (should_start_calendar_background_task ([] : Registry) "5.2025" 0 300).2 = [] ∧
    (should_start_calendar_background_task
        (should_start_calendar_background_task ([] : Registry) "5.2025" 0 300).2
        "5.2025" 0 300).1 = true ∧
    (work_unit_guard ([] : Registry) "5.2025").1 = true ∧
    (work_unit_guard (work_unit_guard ([] : Registry) "5.2025").2 "5.2025").1 = false :=
  single_flight_via_work_unit_guard ([] : Registry) "5.2025" 0 0 300 rfl

/-- C6: an uncaught exception inside a work unit leaves the partition
record with status error (the finally block does not overwrite it with
complete) and all change flags forced false, for both the calendar and the
tasks work units. -/
theorem error_outcome_forces_error_status (reg : Registry) (tid : String) (t : Int)
    (hok : ∀ info, reg.lookup tid = some info → ¬ info.status = "running") :
    (run_calendar_work_unit reg tid (.error ()) t).lookup tid =
      some { status := "error", updated := false, events_changed := some false
             chores_changed := none, last_update_time := some t } ∧
    (run_tasks_work_unit reg tid (.error ())).lookup tid =
      some { status := "error", updated := false, events_changed := none
             chores_changed := some false, last_update_time := none } := by
  have hguard : work_unit_guard reg tid = (true, reg.store tid TaskRec.initial) := by
    unfold work_unit_guard
    rcases hl : reg.lookup tid with _ | info
    · simp
    · have hne := hok info hl
      simp [hne]
  constructor
  · unfold run_calendar_work_unit
    rw [hguard]
    simp only [if_true]
    rw [modify_store_self, modify_store_self, lookup_store_self]
    rfl
  · unfold run_tasks_work_unit
    rw [hguard]
    simp only [if_true]
    rw [modify_store_self, modify_store_self, lookup_store_self]
    rfl

/-- Witness for error_outcome_forces_error_status on the empty registry. -/
theorem error_outcome_forces_error_status_witness :
    (run_calendar_work_unit ([] : Registry) "calendar.5.2025" (.error ()) 42).lookup
        "calendar.5.2025" =
      some { status := "error", updated := false, events_changed := some false
             chores_changed := none, last_update_time := some 42 } ∧
    (run_tasks_work_unit ([] : Registry) "calendar.5.2025" (.error ())).lookup
        "calendar.5.2025" =
      some { status := "error", updated := false, events_changed := none
             chores_changed := some false, last_update_time := none } :=
  error_outcome_forces_error_status ([] : Registry) "calendar.5.2025" 42
    (by intro info hinfo; simp [Registry.lookup] at hinfo)

/-- C9 counterexample: the all-day branch of parse_google_datetime has no
exception handler, so a malformed date-only string raises, and the
surrounding loop in fetch_and_process_google_events then returns the empty
list, dropping every event of the batch including the well-formed one. -/
theorem malformed_date_only_raises :
    parse_google_datetime noIso { dateTime := none, date := some "garbage" }
      = .error () ∧
    fetch_and_process_google_events noIso [goodRawEvent, badRawEvent] = [] := by
  exact ⟨by rfl, by rfl⟩

/-- C9 amended: a malformed timed (dateTime) string never raises and is
substituted by the minimum representable timestamp, and a well-formed one
is returned as parsed; a date-only string that strptime rejects raises
instead of being substituted. -/
theorem parse_google_datetime_timed_never_raises
    (fromiso : String → Option DateTime) (obj : GDateObj) (s : String)
    (hdt : obj.dateTime = some s) :
    (fromiso s = none →
      parse_google_datetime fromiso obj = .ok (DateTime.minValue, false)) ∧
    (∀ dt, fromiso s = some dt →
      parse_google_datetime fromiso obj = .ok (dt, false)) ∧
    (∀ s2, strptime_date s2 = none →
      parse_google_datetime fromiso { dateTime := none, date := some s2 }
        = .error ()) := by
  obtain ⟨odt, od⟩ := obj
  simp only at hdt
  subst hdt
  refine ⟨?_, ?_, ?_⟩
  · intro hnone
    simp [parse_google_datetime, hnone]
  · intro dt hdt2
    simp [parse_google_datetime, hdt2]
  · intro s2 hs2
    simp [parse_google_datetime, hs2]

/-- Witness for parse_google_datetime_timed_never_raises at a concrete
timed object and the malformed date-only string. -/
theorem parse_google_datetime_timed_never_raises_witness :
    (noIso "2025-06-02T14:00:00Z" = none →
      parse_google_datetime noIso goodRawEvent.start
        = .ok (DateTime.minValue, false)) ∧
    (noIso "2025-06-02T14:00:00Z" = some DateTime.minValue →
      parse_google_datetime noIso goodRawEvent.start
        = .ok (DateTime.minValue, false)) ∧
    (strptime_date "garbage" = none →
      parse_google_datetime noIso { dateTime := none, date := some "garbage" }
        = .error ()) := by
  have h := parse_google_datetime_timed_never_raises noIso goodRawEvent.start
    "2025-06-02T14:00:00Z" rfl
  exact ⟨h.1, h.2.1 DateTime.minValue, h.2.2 "garbage"⟩

theorem find?_replaceCal_self (cals : List CalRow) (row : CalRow) :
    (replaceCal cals row).find? (fun c => c.calendar_id = row.calendar_id)
      = some row := by
  unfold replaceCal
  split_ifs with h
  · rw [List.find?_map]
    have hfun : ((fun c : CalRow => decide (c.calendar_id = row.calendar_id)) ∘
        (fun c : CalRow => if c.calendar_id = row.calendar_id then row else c))
        = (fun c : CalRow => decide (c.calendar_id = row.calendar_id)) := by
      funext c
      by_cases hc : c.calendar_id = row.calendar_id <;> simp [hc, Function.comp]
    rw [hfun]
    obtain ⟨c0, hc0mem, hc0⟩ := List.any_eq_true.mp h
    have hsome : (List.find?
        (fun c : CalRow => decide (c.calendar_id = row.calendar_id)) cals).isSome := by
      rw [List.find?_isSome]
      exact ⟨c0, hc0mem, hc0⟩
    obtain ⟨c1, hc1⟩ := Option.isSome_iff_exists.mp hsome
    have hc1t : c1.calendar_id = row.calendar_id := by
      simpa using List.find?_some hc1
    simp [hc1, hc1t]
  · have hnone : List.find?
        (fun c : CalRow => decide (c.calendar_id = row.calendar_id)) cals = none := by
      rw [List.find?_eq_none]
      intro c hc hct
      exact h (List.any_eq_true.mpr ⟨c, hc, hct⟩)
    rw [List.find?_append, hnone]
    simp

theorem find?_replaceCal_ne (cals : List CalRow) (row : CalRow) (id : String)
    (hne : ¬ id = row.calendar_id) :
    (replaceCal cals row).find? (fun c => c.calendar_id = id)
      = cals.find? (fun c => c.calendar_id = id) := by
  have hrow : ¬ row.calendar_id = id := fun hcontra => hne hcontra.symm
  unfold replaceCal
  split_ifs with h
  · rw [List.find?_map]
    have hfun : ((fun c : CalRow => decide (c.calendar_id = id)) ∘
        (fun c : CalRow => if c.calendar_id = row.calendar_id then row else c))
        = (fun c : CalRow => decide (c.calendar_id = id)) := by
      funext c
      by_cases hc : c.calendar_id = row.calendar_id
      · have hcid : ¬ c.calendar_id = id := fun hco => hrow (hc ▸ hco)
        simp [Function.comp, hc, hrow, hcid]
      · simp [hc, Function.comp]
    rw [hfun]
    rcases hf : cals.find? (fun c => decide (c.calendar_id = id)) with _ | c1
    · rw [hf]
      rfl
    · rw [hf]
      have hc1t : c1.calendar_id = id := by simpa using List.find?_some hf
      have hc1r : ¬ c1.calendar_id = row.calendar_id := fun hcontra =>
        hrow (hcontra ▸ hc1t)
      simp [hc1r]
  · rw [List.find?_append]
    have hsingle : List.find?
        (fun c : CalRow => decide (c.calendar_id = id)) [row] = none := by
      simp [hrow]
    rw [hsingle]
    rcases cals.find? (fun c : CalRow => decide (c.calendar_id = id)) with _ | c1
    · rfl
    · rfl

theorem mem_replaceCal {cals : List CalRow} {row x : CalRow}
    (hx : x ∈ replaceCal cals row) : x ∈ cals ∨ x = row := by
  unfold replaceCal at hx
  split_ifs at hx with h
  · obtain ⟨c, hc, hcx⟩ := List.mem_map.mp hx
    by_cases hcc : c.calendar_id = row.calendar_id
    · right
      rw [← hcx]
      simp [hcc]
    · left
      rw [← hcx]
      simpa [hcc] using hc
  · rcases List.mem_append.mp hx with hl | hr
    · exact Or.inl hl
    · exact Or.inr (List.mem_singleton.mp hr)

theorem get_next_color_frame (st : DBState) :
    (get_next_color st).2.events = st.events ∧
    (get_next_color st).2.months = st.months ∧
    (get_next_color st).2.calendars = st.calendars ∧
    (get_next_color st).2.palette = st.palette := by
  unfold get_next_color
  split_ifs <;> simp

theorem get_calendar_add_calendar_self (st : DBState) (cal : Calendar) :
    ∃ col, get_calendar (add_calendar st cal) cal.calendar_id =
      some { calendar_id := cal.calendar_id, name := cal.name
             display_name := some cal.display_name, color := some col } := by
  unfold add_calendar get_calendar
  rcases hc : cal.color with _ | c0
  · refine ⟨(get_next_color st).1, ?_⟩
    have h := find?_replaceCal_self (get_next_color st).2.calendars
      { calendar_id := cal.calendar_id, name := cal.name
        display_name := some cal.display_name, color := some (get_next_color st).1 }
    simpa using h
  · refine ⟨c0, ?_⟩
    have h := find?_replaceCal_self st.calendars
      { calendar_id := cal.calendar_id, name := cal.name
        display_name := some cal.display_name, color := some c0 }
    simpa using h

theorem get_calendar_add_calendar_ne (st : DBState) (cal : Calendar)
    (id : String) (hne : ¬ id = cal.calendar_id) :
    get_calendar (add_calendar st cal) id = get_calendar st id := by
  unfold add_calendar get_calendar
  rcases hc : cal.color with _ | c0
  · have h := find?_replaceCal_ne (get_next_color st).2.calendars
      { calendar_id := cal.calendar_id, name := cal.name
        display_name := some cal.display_name
        color := some (get_next_color st).1 } id (by simpa using hne)
    have h2 : List.find? (fun c : CalRow => decide (c.calendar_id = id))
        (get_next_color st).2.calendars
        = List.find? (fun c : CalRow => decide (c.calendar_id = id)) st.calendars := by
      rw [(get_next_color_frame st).2.2.1]
    simpa using h.trans h2
  · have h := find?_replaceCal_ne st.calendars
      { calendar_id := cal.calendar_id, name := cal.name
        display_name := some cal.display_name, color := some c0 } id
      (by simpa using hne)
    simpa using h

theorem add_calendar_events_frame (st : DBState) (cal : Calendar) :
    (add_calendar st cal).events = st.events ∧
    (add_calendar st cal).months = st.months := by
  unfold add_calendar
  rcases hc : cal.color with _ | c0
  · simpa using ⟨(get_next_color_frame st).1, (get_next_color_frame st).2.1⟩
  · simp

theorem colorComplete_add_calendar {st : DBState} (cal : Calendar)
    (h : ColorComplete st) : ColorComplete (add_calendar st cal) := by
  intro c hcmem
  unfold add_calendar at hcmem
  rcases hc : cal.color with _ | c0 <;> rw [hc] at hcmem <;> simp only at hcmem
  · rcases mem_replaceCal hcmem with hmem | heq
    · rw [(get_next_color_frame st).2.2.1] at hmem
      exact h c hmem
    · subst heq
      rfl
  · rcases mem_replaceCal hcmem with hmem | heq
    · exact h c hmem
    · subst heq
      rfl

theorem get_calendar_id_of_find {st : DBState} {id : String} {row : CalRow}
    (hg : get_calendar st id = some row) : row.calendar_id = id := by
  unfold get_calendar at hg
  simpa using List.find?_some hg

theorem processEventDatum_frame (aliases : List (String × String))
    (st : DBState) (d : EventData) :
    (processEventDatum aliases st d).1.events = st.events ∧
    (processEventDatum aliases st d).1.months = st.months := by
  unfold processEventDatum
  rcases hg : get_calendar st d.calendar_id with _ | row
  · simpa using add_calendar_events_frame st _
  · dsimp only
    split_ifs with hcond
    · simpa using add_calendar_events_frame st _
    · simp

theorem processEventDatum_matches (aliases : List (String × String))
    (st : DBState) (d : EventData)
    (hdisp : ¬ get_calendar_display_name aliases d.calendar_id d.calendar_name = "") :
    calendarMatches aliases (processEventDatum aliases st d).1 d := by
  unfold processEventDatum
  rcases hg : get_calendar st d.calendar_id with _ | row
  · simp only
    obtain ⟨col, hcol⟩ := get_calendar_add_calendar_self st
      (mkCalendar d.calendar_id d.calendar_name
        (some (get_calendar_display_name aliases d.calendar_id d.calendar_name)) none)
    refine ⟨_, by simpa [mkCalendar] using hcol, ?_, ?_⟩
    · simp [toCalendar, mkCalendar]
    · simp [toCalendar, mkCalendar, hdisp]
  · have hrowid : row.calendar_id = d.calendar_id := get_calendar_id_of_find hg
    dsimp only
    split_ifs with hcond
    · simp only
      obtain ⟨col, hcol⟩ := get_calendar_add_calendar_self st
        { toCalendar row with
            name := d.calendar_name
            display_name := get_calendar_display_name aliases d.calendar_id d.calendar_name }
      have hid : ({ toCalendar row with
          name := d.calendar_name
          display_name :=
            get_calendar_display_name aliases d.calendar_id d.calendar_name } :
          Calendar).calendar_id = d.calendar_id := by
        simp [toCalendar, mkCalendar, hrowid]
      rw [hid] at hcol
      refine ⟨_, hcol, ?_, ?_⟩
      · simp [toCalendar, mkCalendar]
      · simp [toCalendar, mkCalendar, hdisp]
    · push_neg at hcond
      exact ⟨row, by simpa using hg, hcond.1, hcond.2⟩

theorem processEventDatum_colorComplete (aliases : List (String × String))
    {st : DBState} (d : EventData) (h : ColorComplete st) :
    ColorComplete (processEventDatum aliases st d).1 := by
  unfold processEventDatum
  rcases hg : get_calendar st d.calendar_id with _ | row
  · simpa using colorComplete_add_calendar _ h
  · dsimp only
    split_ifs with hcond
    · simpa using colorComplete_add_calendar _ h
    · simpa using h

theorem processEventDatum_cal_isSome (aliases : List (String × String))
    {st : DBState} (d : EventData) (h : ColorComplete st) :
    ∀ cal, (processEventDatum aliases st d).2.1 = some cal →
      cal.color.isSome = true := by
  unfold processEventDatum
  rcases hg : get_calendar st d.calendar_id with _ | row
  · simp only
    intro cal hcal
    obtain ⟨col, hcol⟩ := get_calendar_add_calendar_self st
      (mkCalendar d.calendar_id d.calendar_name
        (some (get_calendar_display_name aliases d.calendar_id d.calendar_name)) none)
    rw [show (mkCalendar d.calendar_id d.calendar_name
        (some (get_calendar_display_name aliases d.calendar_id d.calendar_name))
        none).calendar_id = d.calendar_id from by simp [mkCalendar]] at hcol
    rw [hcol] at hcal
    simp only [Option.map_some', Option.some_inj] at hcal
    rw [← hcal]
    simp [toCalendar, mkCalendar]
  · have hrowid : row.calendar_id = d.calendar_id := get_calendar_id_of_find hg
    dsimp only
    split_ifs with hcond
    · simp only
      intro cal hcal
      obtain ⟨col, hcol⟩ := get_calendar_add_calendar_self st
        { toCalendar row with
            name := d.calendar_name
            display_name := get_calendar_display_name aliases d.calendar_id d.calendar_name }
      rw [show ({ toCalendar row with
          name := d.calendar_name
          display_name :=
            get_calendar_display_name aliases d.calendar_id d.calendar_name } :
          Calendar).calendar_id = d.calendar_id from by
        simp [toCalendar, mkCalendar, hrowid]] at hcol
      rw [hcol] at hcal
      simp only [Option.map_some', Option.some_inj] at hcal
      rw [← hcal]
      simp [toCalendar, mkCalendar]
    · simp only
      intro cal hcal
      have hcc : cal = toCalendar row := by
        simpa using hcal.symm
      rw [hcc]
      have := h row (by
        have : get_calendar st d.calendar_id = some row := hg
        unfold get_calendar at this
        exact List.mem_of_find?_eq_some this)
      simpa [toCalendar, mkCalendar] using this

theorem processEventDatum_of_matches (aliases : List (String × String))
    {st : DBState} {d : EventData}
    (hm : calendarMatches aliases st d) :
    ∃ cal, processEventDatum aliases st d = (st, some cal, false) := by
  obtain ⟨row, hg, hname, hdispeq⟩ := hm
  refine ⟨toCalendar row, ?_⟩
  unfold processEventDatum
  rw [hg]
  dsimp only
  rw [if_neg (by simp [hname, hdispeq])]

theorem get_calendar_processEventDatum_ne (aliases : List (String × String))
    (st : DBState) (d : EventData) (id : String) (hne : ¬ id = d.calendar_id) :
    get_calendar (processEventDatum aliases st d).1 id = get_calendar st id := by
  unfold processEventDatum
  rcases hg : get_calendar st d.calendar_id with _ | row
  · simp only
    exact get_calendar_add_calendar_ne st _ id (by simpa [mkCalendar] using hne)
  · have hrowid : row.calendar_id = d.calendar_id := get_calendar_id_of_find hg
    dsimp only
    split_ifs with hcond
    · simp only
      exact get_calendar_add_calendar_ne st _ id
        (by simpa [toCalendar, mkCalendar, hrowid] using hne)
    · simp

theorem create_cons (aliases : List (String × String)) (st : DBState)
    (mid : String) (d : EventData) (rest : List EventData) :
    create_calendar_events_from_google_data aliases st mid (d :: rest) =
      ((create_calendar_events_from_google_data aliases
          (processEventDatum aliases st d).1 mid rest).1,
        (match (processEventDatum aliases st d).2.1 with
         | none => (create_calendar_events_from_google_data aliases
            (processEventDatum aliases st d).1 mid rest).2.1
         | some cal => mkEvent d cal mid ::
            (create_calendar_events_from_google_data aliases
              (processEventDatum aliases st d).1 mid rest).2.1),
        ((processEventDatum aliases st d).2.2 ||
          (create_calendar_events_from_google_data aliases
            (processEventDatum aliases st d).1 mid rest).2.2)) := by
  conv_lhs => rw [create_calendar_events_from_google_data]
  rcases h1 : processEventDatum aliases st d with ⟨st1, calOpt, ch1⟩
  rcases h2 : create_calendar_events_from_google_data aliases st1 mid rest
    with ⟨st2, evs, ch2⟩
  rcases calOpt with _ | cal <;> simp [h1, h2]

theorem create_nil (aliases : List (String × String)) (st : DBState)
    (mid : String) :
    create_calendar_events_from_google_data aliases st mid [] = (st, [], false) := by
  rfl

theorem create_of_matches (aliases : List (String × String)) (st : DBState)
    (mid : String) (L : List EventData)
    (hall : ∀ d ∈ L, calendarMatches aliases st d) :
    (create_calendar_events_from_google_data aliases st mid L).1 = st ∧
    (create_calendar_events_from_google_data aliases st mid L).2.2 = false ∧
    ((create_calendar_events_from_google_data aliases st mid L).2.1 = [] ↔ L = []) := by
  induction L with
  | nil => simp [create_nil]
  | cons d rest ih =>
      obtain ⟨cal, hp⟩ := processEventDatum_of_matches aliases (hall d (by simp))
      have ihr := ih (fun d2 hd2 => hall d2 (by simp [hd2]))
      rw [create_cons, hp]
      dsimp only
      exact ⟨ihr.1, by simp [ihr.2.1], by simp⟩

theorem create_matches_preserve (aliases : List (String × String))
    (mid : String) (dd : EventData) (L : List EventData) :
    ∀ st : DBState, calendarMatches aliases st dd →
    (∀ d2 ∈ L, d2.calendar_id = dd.calendar_id → d2.calendar_name = dd.calendar_name) →
    (∀ d2 ∈ L, ¬ get_calendar_display_name aliases d2.calendar_id d2.calendar_name = "") →
    calendarMatches aliases
      (create_calendar_events_from_google_data aliases st mid L).1 dd := by
  induction L with
  | nil =>
      intro st hm _ _
      simpa [create_nil] using hm
  | cons d2 rest ih =>
      intro st hm hcons hdisp
      rcases hp : processEventDatum aliases st d2 with ⟨st1, calOpt, ch⟩
      have hstep : calendarMatches aliases st1 dd := by
        by_cases hid : d2.calendar_id = dd.calendar_id
        · have hm2 := processEventDatum_matches aliases st d2 (hdisp d2 (by simp))
          rw [hp] at hm2
          obtain ⟨row, hrowg, hname, hdisp2⟩ := hm2
          refine ⟨row, by rwa [← hid], ?_, ?_⟩
          · rw [hname]
            exact hcons d2 (by simp) hid
          · rw [hdisp2, hid, hcons d2 (by simp) hid]
        · have hpres := get_calendar_processEventDatum_ne aliases st d2 dd.calendar_id
            (fun hco => hid hco.symm)
          rw [hp] at hpres
          obtain ⟨row, hrowg, hname, hdisp2⟩ := hm
          exact ⟨row, by rwa [hpres], hname, hdisp2⟩
      have hstate : (create_calendar_events_from_google_data aliases st mid
          (d2 :: rest)).1 =
          (create_calendar_events_from_google_data aliases st1 mid rest).1 := by
        rw [create_cons, hp]
      rw [hstate]
      exact ih st1 hstep (fun d3 hd3 => hcons d3 (by simp [hd3]))
        (fun d3 hd3 => hdisp d3 (by simp [hd3]))

theorem create_matches_all (aliases : List (String × String))
    (mid : String) (L : List EventData) :
    ∀ st : DBState,
    (∀ d1 ∈ L, ∀ d2 ∈ L, d1.calendar_id = d2.calendar_id →
      d1.calendar_name = d2.calendar_name) →
    (∀ d2 ∈ L, ¬ get_calendar_display_name aliases d2.calendar_id d2.calendar_name = "") →
    ∀ dd ∈ L, calendarMatches aliases
      (create_calendar_events_from_google_data aliases st mid L).1 dd := by
  induction L with
  | nil =>
      intro st _ _ dd hdd
      cases hdd
  | cons d rest ih =>
      intro st hcons hdisp dd hdd
      rcases hp : processEventDatum aliases st d with ⟨st1, calOpt, ch⟩
      have hstate : (create_calendar_events_from_google_data aliases st mid
          (d :: rest)).1 =
          (create_calendar_events_from_google_data aliases st1 mid rest).1 := by
        rw [create_cons, hp]
      rw [hstate]
      rcases List.mem_cons.mp hdd with heq | hmem
      · subst heq
        have hm1 := processEventDatum_matches aliases st dd (hdisp dd (by simp))
        rw [hp] at hm1
        exact create_matches_preserve aliases mid dd rest st1 hm1
          (fun d2 hd2 hid => hcons d2 (by simp [hd2]) dd (by simp) hid)
          (fun d2 hd2 => hdisp d2 (by simp [hd2]))
      · exact ih st1
          (fun d1 hd1 d2 hd2 => hcons d1 (by simp [hd1]) d2 (by simp [hd2]))
          (fun d2 hd2 => hdisp d2 (by simp [hd2])) dd hmem

theorem create_colors (aliases : List (String × String))
    (mid : String) (L : List EventData) :
    ∀ st : DBState, ColorComplete st →
    ColorComplete (create_calendar_events_from_google_data aliases st mid L).1 ∧
    (∀ e ∈ (create_calendar_events_from_google_data aliases st mid L).2.1,
      e.calendar.color.isSome = true) := by
  induction L with
  | nil =>
      intro st hcc
      refine ⟨by simpa [create_nil] using hcc, ?_⟩
      intro e he
      rw [create_nil] at he
      cases he
  | cons d rest ih =>
      intro st hcc
      rcases hp : processEventDatum aliases st d with ⟨st1, calOpt, ch⟩
      have hcc1 : ColorComplete st1 := by
        have := processEventDatum_colorComplete aliases d hcc
        rwa [hp] at this
      have ihr := ih st1 hcc1
      rw [create_cons, hp]
      dsimp only
      refine ⟨ihr.1, ?_⟩
      rcases calOpt with _ | cal
      · exact ihr.2
      · intro e he
        rcases List.mem_cons.mp he with heq | hmem
        · subst heq
          have := processEventDatum_cal_isSome aliases d hcc cal
          rw [hp] at this
          exact this (by rfl)
        · exact ihr.2 e hmem

theorem create_events_frame (aliases : List (String × String))
    (mid : String) (L : List EventData) :
    ∀ st : DBState,
    (create_calendar_events_from_google_data aliases st mid L).1.events = st.events := by
  induction L with
  | nil =>
      intro st
      simp [create_nil]
  | cons d rest ih =>
      intro st
      rcases hp : processEventDatum aliases st d with ⟨st1, calOpt, ch⟩
      have hstate : (create_calendar_events_from_google_data aliases st mid
          (d :: rest)).1 =
          (create_calendar_events_from_google_data aliases st1 mid rest).1 := by
        rw [create_cons, hp]
      rw [hstate, ih st1]
      have := (processEventDatum_frame aliases st d).1
      rwa [hp] at this

theorem create_event_fields (aliases : List (String × String))
    (mid : String) (L : List EventData) :
    ∀ st : DBState,
    ∀ e ∈ (create_calendar_events_from_google_data aliases st mid L).2.1,
      e.month_id = mid ∧ e.id ∈ L.map EventData.id := by
  induction L with
  | nil =>
      intro st e he
      rw [create_nil] at he
      cases he
  | cons d rest ih =>
      intro st e he
      rcases hp : processEventDatum aliases st d with ⟨st1, calOpt, ch⟩
      rw [create_cons, hp] at he
      dsimp only at he
      rcases calOpt with _ | cal
      · obtain ⟨hm, hid⟩ := ih st1 e he
        exact ⟨hm, by simp [hid]⟩
      · rcases List.mem_cons.mp he with heq | hmem
        · subst heq
          exact ⟨rfl, by simp [mkEvent]⟩
        · obtain ⟨hm, hid⟩ := ih st1 e hmem
          exact ⟨hm, by simp [hid]⟩

theorem mem_replaceEvent {evs : List EventRow} {row x : EventRow}
    (hx : x ∈ replaceEvent evs row) : x ∈ evs ∨ x = row := by
  unfold replaceEvent at hx
  split_ifs at hx with h
  · obtain ⟨c, hc, hcx⟩ := List.mem_map.mp hx
    by_cases hcc : c.id = row.id
    · right
      rw [← hcx]
      simp [hcc]
    · left
      rw [← hcx]
      simpa [hcc] using hc
  · rcases List.mem_append.mp hx with hl | hr
    · exact Or.inl hl
    · exact Or.inr (List.mem_singleton.mp hr)

theorem addEventStep_of_colored (st : DBState) (e : CalendarEvent)
    (h : e.calendar.color.isSome = true) :
    (addEventStep st e).calendars = st.calendars ∧
    (addEventStep st e).events = replaceEvent st.events (eventRowOf e) := by
  unfold addEventStep
  rcases hc : e.calendar.color with _ | c
  · rw [hc] at h
    cases h
  · simp

theorem add_events_loop_calendars (evs : List CalendarEvent) :
    ∀ (st : DBState) (pids : List String),
    (∀ e ∈ evs, e.calendar.color.isSome = true) →
    (add_events_loop st pids evs).1.calendars = st.calendars := by
  induction evs with
  | nil =>
      intro st pids _
      rfl
  | cons e rest ih =>
      intro st pids h
      simp only [add_events_loop]
      split_ifs with hc
      · exact ih st pids (fun e2 he2 => h e2 (by simp [he2]))
      · dsimp only
        rw [ih (addEventStep st e) (e.id :: pids)
          (fun e2 he2 => h e2 (by simp [he2]))]
        exact (addEventStep_of_colored st e (h e (by simp))).1

theorem add_events_loop_events_inv (Q : EventRow → Prop)
    (evs : List CalendarEvent) :
    ∀ (st : DBState) (pids : List String),
    (∀ e ∈ evs, e.calendar.color.isSome = true) →
    (∀ r ∈ st.events, Q r) → (∀ e ∈ evs, Q (eventRowOf e)) →
    ∀ r ∈ (add_events_loop st pids evs).1.events, Q r := by
  induction evs with
  | nil =>
      intro st pids _ hst _ r hr
      exact hst r hr
  | cons e rest ih =>
      intro st pids hcol hst hq r hr
      simp only [add_events_loop] at hr
      split_ifs at hr with hc
      · exact ih st pids (fun e2 he2 => hcol e2 (by simp [he2])) hst
          (fun e2 he2 => hq e2 (by simp [he2])) r hr
      · dsimp only at hr
        refine ih (addEventStep st e) (e.id :: pids)
          (fun e2 he2 => hcol e2 (by simp [he2])) ?_
          (fun e2 he2 => hq e2 (by simp [he2])) r hr
        intro r2 hr2
        rw [(addEventStep_of_colored st e (hcol e (by simp))).2] at hr2
        rcases mem_replaceEvent hr2 with hm | he
        · exact hst r2 hm
        · rw [he]
          exact hq e (by simp)

theorem add_events_flag (st : DBState) (e : CalendarEvent)
    (rest : List CalendarEvent) :
    (add_events st (e :: rest)).2 = true := by
  unfold add_events
  simp only [add_events_loop]
  split_ifs with hc
  · simp at hc
  · rfl

theorem cleanup_establishes_inv (st : DBState) (m y : Nat)
    (snap : List String) :
    ∀ r ∈ (cleanup_deleted_events st m y snap).1.events,
      r.month_id = monthId m y → r.id ∈ snap := by
  intro r hr hm
  by_contra hnot
  unfold cleanup_deleted_events at hr
  split_ifs at hr with h
  · rw [List.mem_filter] at hr
    have hrid : r.id ∈ staleEventIds st (monthId m y) snap :=
      mem_staleEventIds.mpr ⟨⟨r, hr.1, rfl, hm⟩, hnot⟩
    have h2 := hr.2
    simp only [decide_eq_true_eq, List.elem_iff] at h2
    exact h2 hrid
  · push_neg at h
    have hrid : r.id ∈ staleEventIds st (monthId m y) snap :=
      mem_staleEventIds.mpr ⟨⟨r, hr, rfl, hm⟩, hnot⟩
    rw [h] at hrid
    cases hrid

theorem cleanup_of_inv (st : DBState) (m y : Nat) (snap : List String)
    (hinv : ∀ r ∈ st.events, r.month_id = monthId m y → r.id ∈ snap) :
    cleanup_deleted_events st m y snap = (st, false) := by
  have hempty : staleEventIds st (monthId m y) snap = [] := by
    rw [List.eq_nil_iff_forall_not_mem]
    intro x hx
    obtain ⟨⟨r, hr, hid, hm⟩, hnot⟩ := mem_staleEventIds.mp hx
    exact hnot (hid ▸ hinv r hr hm)
  unfold cleanup_deleted_events
  rw [if_neg (by simp [hempty])]

theorem cleanup_frame (st : DBState) (m y : Nat) (snap : List String) :
    (cleanup_deleted_events st m y snap).1.calendars = st.calendars ∧
    (cleanup_deleted_events st m y snap).1.months = st.months ∧
    (cleanup_deleted_events st m y snap).1.cursor = st.cursor := by
  unfold cleanup_deleted_events
  split_ifs <;> simp

theorem add_month_frame (st : DBState) (y m : Nat) :
    (add_month st y m).events = st.events ∧
    (add_month st y m).calendars = st.calendars ∧
    (add_month st y m).cursor = st.cursor :=
  ⟨rfl, rfl, rfl⟩

theorem calendarMatches_of_calendars_eq {aliases : List (String × String)}
    {st1 st2 : DBState} {d : EventData}
    (h : st2.calendars = st1.calendars) (hm : calendarMatches aliases st1 d) :
    calendarMatches aliases st2 d := by
  obtain ⟨row, hg, h1, h2⟩ := hm
  refine ⟨row, ?_, h1, h2⟩
  unfold get_calendar at hg ⊢
  rw [h]
  exact hg

theorem colorComplete_of_calendars_eq {st1 st2 : DBState}
    (h : st2.calendars = st1.calendars) (hm : ColorComplete st1) :
    ColorComplete st2 := by
  intro c hc
  rw [h] at hc
  exact hm c hc

theorem recon_unfold (aliases : List (String × String)) (st : DBState)
    (m y : Nat) (data : List EventData) (hne : data ≠ []) :
    fetch_google_events_reconcile aliases st m y data =
      (if (create_calendar_events_from_google_data aliases (add_month st y m)
            (monthId m y) data).2.1 ≠ [] then
        { state := (add_events
            (cleanup_deleted_events
              (create_calendar_events_from_google_data aliases (add_month st y m)
                (monthId m y) data).1 m y (data.map EventData.id)).1
            (create_calendar_events_from_google_data aliases (add_month st y m)
              (monthId m y) data).2.1).1
          calendars_changed := (create_calendar_events_from_google_data aliases
            (add_month st y m) (monthId m y) data).2.2
          deleted_events := (cleanup_deleted_events
            (create_calendar_events_from_google_data aliases (add_month st y m)
              (monthId m y) data).1 m y (data.map EventData.id)).2
          db_changes := (add_events
            (cleanup_deleted_events
              (create_calendar_events_from_google_data aliases (add_month st y m)
                (monthId m y) data).1 m y (data.map EventData.id)).1
            (create_calendar_events_from_google_data aliases (add_month st y m)
              (monthId m y) data).2.1).2
          events_changed := (create_calendar_events_from_google_data aliases
              (add_month st y m) (monthId m y) data).2.2 ||
            (add_events
              (cleanup_deleted_events
                (create_calendar_events_from_google_data aliases (add_month st y m)
                  (monthId m y) data).1 m y (data.map EventData.id)).1
              (create_calendar_events_from_google_data aliases (add_month st y m)
                (monthId m y) data).2.1).2 ||
            (cleanup_deleted_events
              (create_calendar_events_from_google_data aliases (add_month st y m)
                (monthId m y) data).1 m y (data.map EventData.id)).2 }
      else
        { state := (cleanup_deleted_events
            (create_calendar_events_from_google_data aliases (add_month st y m)
              (monthId m y) data).1 m y (data.map EventData.id)).1
          calendars_changed := (create_calendar_events_from_google_data aliases
            (add_month st y m) (monthId m y) data).2.2
          deleted_events := (cleanup_deleted_events
            (create_calendar_events_from_google_data aliases (add_month st y m)
              (monthId m y) data).1 m y (data.map EventData.id)).2
          db_changes := false
          events_changed := (create_calendar_events_from_google_data aliases
              (add_month st y m) (monthId m y) data).2.2 ||
            (cleanup_deleted_events
              (create_calendar_events_from_google_data aliases (add_month st y m)
                (monthId m y) data).1 m y (data.map EventData.id)).2 }) := by
  unfold fetch_google_events_reconcile
  rw [if_pos hne]

theorem recon_post (aliases : List (String × String)) (st : DBState)
    (m y : Nat) (data : List EventData) (hne : data ≠ [])
    (hcons : ∀ d1 ∈ data, ∀ d2 ∈ data, d1.calendar_id = d2.calendar_id →
      d1.calendar_name = d2.calendar_name)
    (hdisp : ∀ d ∈ data,
      ¬ get_calendar_display_name aliases d.calendar_id d.calendar_name = "")
    (hcolors : ColorComplete st) :
    (∀ d ∈ data, calendarMatches aliases
      (fetch_google_events_reconcile aliases st m y data).state d) ∧
    (∀ r ∈ (fetch_google_events_reconcile aliases st m y data).state.events,
      r.month_id = monthId m y → r.id ∈ data.map EventData.id) := by
  rw [recon_unfold aliases st m y data hne]
  have hcc0 : ColorComplete (add_month st y m) :=
    colorComplete_of_calendars_eq (add_month_frame st y m).2.1 hcolors
  have hmatches := create_matches_all aliases (monthId m y) data
    (add_month st y m) hcons hdisp
  have hcolors1 := create_colors aliases (monthId m y) data (add_month st y m) hcc0
  have hfields := create_event_fields aliases (monthId m y) data (add_month st y m)
  have hclinv := cleanup_establishes_inv
    (create_calendar_events_from_google_data aliases (add_month st y m)
      (monthId m y) data).1 m y (data.map EventData.id)
  have hclframe := cleanup_frame
    (create_calendar_events_from_google_data aliases (add_month st y m)
      (monthId m y) data).1 m y (data.map EventData.id)
  split_ifs with hevs
  · constructor
    · intro d hd
      refine calendarMatches_of_calendars_eq ?_
        (calendarMatches_of_calendars_eq hclframe.1 (hmatches d hd))
      exact add_events_loop_calendars _ _ _ hcolors1.2
    · intro r hr
      exact add_events_loop_events_inv
        (fun r2 => r2.month_id = monthId m y → r2.id ∈ data.map EventData.id)
        _ _ _ hcolors1.2 hclinv
        (fun e he => by
          have hf := hfields e he
          intro _
          simpa [eventRowOf] using hf.2) r hr
  · constructor
    · intro d hd
      exact calendarMatches_of_calendars_eq hclframe.1 (hmatches d hd)
    · exact hclinv

/-- C1 amended: reconciling the same non-empty snapshot twice for a
partition — assuming each calendar id carries a single calendar name in
the snapshot, every resolved display name is non-empty, and every stored
calendar row has a color — performs no calendar create/update and
triggers no deletion on the second pass, but the unconditional
INSERT OR REPLACE upsert still reports a database change, so the second
pass reports events_changed = true rather than false. -/
theorem second_pass_flags (aliases : List (String × String)) (st : DBState)
    (m y : Nat) (data : List EventData) (hne : data ≠ [])
    (hcons : ∀ d1 ∈ data, ∀ d2 ∈ data, d1.calendar_id = d2.calendar_id →
      d1.calendar_name = d2.calendar_name)
    (hdisp : ∀ d ∈ data,
      ¬ get_calendar_display_name aliases d.calendar_id d.calendar_name = "")
    (hcolors : ColorComplete st) :
    (fetch_google_events_reconcile aliases
      (fetch_google_events_reconcile aliases st m y data).state m y
      data).calendars_changed = false ∧
    (fetch_google_events_reconcile aliases
      (fetch_google_events_reconcile aliases st m y data).state m y
      data).deleted_events = false ∧
    (fetch_google_events_reconcile aliases
      (fetch_google_events_reconcile aliases st m y data).state m y
      data).db_changes = true ∧
    (fetch_google_events_reconcile aliases
      (fetch_google_events_reconcile aliases st m y data).state m y
      data).events_changed = true := by
  obtain ⟨hmatches, hinv⟩ := recon_post aliases st m y data hne hcons hdisp hcolors
  generalize hst1 : (fetch_google_events_reconcile aliases st m y data).state = st1
    at hmatches hinv ⊢
  rw [recon_unfold aliases st1 m y data hne]
  have hm0 : ∀ d ∈ data, calendarMatches aliases (add_month st1 y m) d :=
    fun d hd => calendarMatches_of_calendars_eq (add_month_frame st1 y m).2.1
      (hmatches d hd)
  have hc := create_of_matches aliases (add_month st1 y m) (monthId m y) data hm0
  have hevs : (create_calendar_events_from_google_data aliases (add_month st1 y m)
      (monthId m y) data).2.1 ≠ [] := fun hnil => hne (hc.2.2.mp hnil)
  have hinv0 : ∀ r ∈ (create_calendar_events_from_google_data aliases
      (add_month st1 y m) (monthId m y) data).1.events,
      r.month_id = monthId m y → r.id ∈ data.map EventData.id := by
    intro r hr
    rw [create_events_frame aliases (monthId m y) data (add_month st1 y m)] at hr
    exact hinv r (by
      have hevents : (add_month st1 y m).events = st1.events :=
        (add_month_frame st1 y m).1
      rwa [hevents] at hr)
  have hcl := cleanup_of_inv (create_calendar_events_from_google_data aliases
      (add_month st1 y m) (monthId m y) data).1 m y (data.map EventData.id) hinv0
  rw [if_pos hevs]
  have hdb : (add_events
      (cleanup_deleted_events
        (create_calendar_events_from_google_data aliases (add_month st1 y m)
          (monthId m y) data).1 m y (data.map EventData.id)).1
      (create_calendar_events_from_google_data aliases (add_month st1 y m)
        (monthId m y) data).2.1).2 = true := by
    rcases hevse : (create_calendar_events_from_google_data aliases
        (add_month st1 y m) (monthId m y) data).2.1 with _ | ⟨e, rest⟩
    · exact absurd hevse hevs
    · rw [hcl]
      exact add_events_flag _ e rest
  have hdb2 : (add_events
      (create_calendar_events_from_google_data aliases (add_month st1 y m)
        (monthId m y) data).1
      (create_calendar_events_from_google_data aliases (add_month st1 y m)
        (monthId m y) data).2.1).2 = true := by
    rw [hcl] at hdb
    exact hdb
  exact ⟨by simp [hc.2.1], by simp [hcl], hdb, by simp [hc.2.1, hcl, hdb2]⟩

/-- Witness for second_pass_flags: one remote event reconciled twice into
a fresh store with a two-color palette. -/
theorem second_pass_flags_witness :
    (fetch_google_events_reconcile []
      (fetch_google_events_reconcile [] twoColorState 6 2025
        [sampleEventData]).state 6 2025 [sampleEventData]).calendars_changed
      = false ∧
    (fetch_google_events_reconcile []
      (fetch_google_events_reconcile [] twoColorState 6 2025
        [sampleEventData]).state 6 2025 [sampleEventData]).deleted_events
      = false ∧
    (fetch_google_events_reconcile []
      (fetch_google_events_reconcile [] twoColorState 6 2025
        [sampleEventData]).state 6 2025 [sampleEventData]).db_changes = true ∧
    (fetch_google_events_reconcile []
      (fetch_google_events_reconcile [] twoColorState 6 2025
        [sampleEventData]).state 6 2025 [sampleEventData]).events_changed
      = true :=
  second_pass_flags [] twoColorState 6 2025 [sampleEventData]
    (by decide) (by decide) (by decide)
    (by intro c hc; simp [twoColorState] at hc)

/-- C1 counterexample: reconciling the same non-empty snapshot twice still
reports events_changed = true on the second pass, because the unconditional
INSERT OR REPLACE upsert reports a database change whenever at least one
event is present. -/
theorem second_pass_still_reports_change :
    ([sampleEventData] ≠ ([] : List EventData)) ∧
    (fetch_google_events_reconcile []
        (fetch_google_events_reconcile [] twoColorState 6 2025 [sampleEventData]).state
        6 2025 [sampleEventData]).db_changes = true ∧
    (fetch_google_events_reconcile []
        (fetch_google_events_reconcile [] twoColorState 6 2025 [sampleEventData]).state
        6 2025 [sampleEventData]).events_changed = true := by
  exact ⟨by decide, by rfl, by rfl⟩

end FamilyCalendar
